import Mathlib

/-!
Verification of the dependency-graph dashboard's layout and interaction
engine (`src/graph_builder.py` of the kifiya-dependency-graph-dashboard
repository), shallowly embedded in Lean 4.

Modelling conventions:
* Python floats are modelled by exact rationals (`ℚ`); the two transcendental
  operations the figure pipeline uses (`exp` inside the sigmoid S-curve and
  the square root inside arrowhead normalisation) are uninterpreted
  parameters (`RealFuns`), so every theorem quantifies over them.
* Python dicts are insertion-ordered association lists (`ainsert` replaces in
  place, appends fresh keys at the end, exactly like a Python dict).
* Python sets that the source only ever consults through membership
  (`highlight_nodes`, `secondary_nodes`, `dim_nodes`, `visible_nodes`) are
  modelled as duplicate-free lists built by `setAdd`.
* Code points where Python can raise (dict `KeyError`, `.values[0]` on an
  empty selection, `min`/`max` of an empty sequence) are modelled with
  `Except String`; everything else is total, as in the source.
* The `X_GROUP` column the builder receives is modelled as an integer (the
  upstream `layout.py` tier map produces 1..4 for the four mapped tier
  groups).
-/

/-- Truthiness of a Python `Optional[str]`: `None` and the empty string are
falsy, any other string is truthy. -/
def pyTruthy : Option String → Bool
  | none => false
  | some s => s ≠ ""

/-- Python `int()` applied to a rational: truncation toward zero. -/
def pyInt (q : ℚ) : ℤ :=
  if 0 ≤ q then ⌊q⌋ else ⌈q⌉

/-- Insertion-ordered dictionary update, mirroring a Python dict assignment:
an existing key keeps its position and gets the new value, a fresh key is
appended at the end. -/
def ainsert {K V : Type} [DecidableEq K] : List (K × V) → K → V → List (K × V)
  | [], k, v => [(k, v)]
  | p :: d, k, v => if p.1 = k then (k, v) :: d else p :: ainsert d k v

/-- Dictionary lookup (first, hence unique, matching key). -/
def alookup {K V : Type} [DecidableEq K] : List (K × V) → K → Option V
  | [], _ => none
  | p :: d, k => if p.1 = k then some p.2 else alookup d k

/-- Dictionary lookup that raises `KeyError` like a Python subscript. -/
def exlookup {K V : Type} [DecidableEq K] (d : List (K × V)) (k : K) :
    Except String V :=
  match alookup d k with
  | some v => .ok v
  | none => .error "KeyError"

/-- Python `set.add` on a list-modelled set: append if not yet present. -/
def setAdd (s : List String) (x : String) : List String :=
  if x ∈ s then s else s ++ [x]

/-- Python `set.update` on a list-modelled set. -/
def setUpdate (s : List String) (xs : List String) : List String :=
  xs.foldl setAdd s

/-- Order-preserving first-occurrence deduplication, like pandas `unique()`. -/
def uniqueFirst {α : Type} [DecidableEq α] (l : List α) : List α :=
  l.foldl (fun acc a => if a ∈ acc then acc else acc ++ [a]) []

/-- Accumulator pass of Python whitespace `str.split()` over the character
list; `cur` holds the current word reversed. -/
def pySplitAux : List Char → List Char → List (List Char)
  | [], cur => if cur = [] then [] else [cur.reverse]
  | c :: cs, cur =>
    if c.isWhitespace then
      if cur = [] then pySplitAux cs [] else cur.reverse :: pySplitAux cs []
    else pySplitAux cs (c :: cur)

/-- Python whitespace `str.split()`: split on whitespace runs, dropping empty
pieces. -/
def pySplit (s : String) : List String :=
  (pySplitAux s.data []).map (fun cs => String.mk cs)

/-- Fuel-driven scanner for Python `str.split(sep)` with a non-empty
separator; the fuel starts above the character count, so it never runs
out. -/
def pySplitOnAux (sep : List Char) : ℕ → List Char → List Char →
    List (List Char)
  | 0, rest, cur => [cur.reverse ++ rest]
  | _ + 1, [], cur => [cur.reverse]
  | fuel + 1, c :: cs, cur =>
    if sep.isPrefixOf (c :: cs) then
      cur.reverse :: pySplitOnAux sep fuel ((c :: cs).drop sep.length) []
    else
      pySplitOnAux sep fuel cs (c :: cur)

/-- Python `str.split(sep)` for a non-empty separator (keeps empty pieces,
unlike the whitespace split). -/
def pySplitOn (sep : String) (s : String) : List String :=
  (pySplitOnAux sep.data (s.data.length + 1) s.data []).map
    (fun cs => String.mk cs)

/-- Python string comparison on character lists: lexicographic by code
point. -/
def strLeChars : List Char → List Char → Bool
  | [], _ => true
  | _ :: _, [] => false
  | a :: as, b :: bs => if a = b then strLeChars as bs else decide (a < b)

/-- Python `str` less-or-equal, used as the stable-sort comparator. -/
def pyStrLe (s t : String) : Bool :=
  strLeChars s.data t.data

/-- Sum-based mean, `np.mean`; the empty case is never reached by callers
(it would be NaN in numpy, not an exception). -/
def meanQ (l : List ℚ) : ℚ :=
  l.sum / l.length

/-- np.linspace over rationals: `n` evenly spaced points from `a` to `b`
inclusive. -/
def linspaceQ (a b : ℚ) (n : ℕ) : List ℚ :=
  if n = 0 then []
  else if n = 1 then [a]
  else (List.range n).map (fun i : ℕ => a + (b - a) * (i : ℚ) / ((n : ℚ) - 1))

/-- Uninterpreted stand-ins for the floating-point transcendental functions
used by the curve generator (`np.exp`) and the arrowhead normaliser
(`** 0.5`). -/
structure RealFuns where
  rexp : ℚ → ℚ
  rsqrt : ℚ → ℚ

/-- Domain row of the builder's `nodes_df` (columns used by
`graph_builder.py`; `X_GROUP` is the integer tier-group index computed by
`layout.py`). -/
structure Node where
  id : String
  name : String
  xGroup : ℤ
  maturity : ℚ
  category : String
  colorHex : String
  borderHex : String
deriving DecidableEq, Repr

/-- Dependency row of the builder's `edges_df`. -/
structure Edge where
  source : String
  target : String
  weight : ℚ
  tier : ℤ
  description : String
deriving DecidableEq, Repr

/-- The immutable model handed to `GraphBuilder`. -/
structure Model where
  nodes : List Node
  edges : List Edge
deriving DecidableEq, Repr

/-! ## Label wrapper (`_wrap_label_intelligently`) -/

/-- Adaptive target character count chosen by `_wrap_label_intelligently`
from the total text length. -/
def targetChars (totalChars : ℕ) : ℕ :=
  if totalChars ≤ 15 then totalChars
  else if totalChars ≤ 30 then 16
  else 18

/-- Hyphen handling for a single word longer than the target: split at an
early hyphen when possible, otherwise force-break inserting a hyphen, as in
the long-word branch of `_wrap_label_intelligently`. Returns the flushed
line and the new current line. -/
def breakLongWord (word : String) (target : ℕ) : String × String :=
  if (pySplitOn "-" word).length ≥ 2 then
    let parts0 := (pySplitOn "-" word).headD ""
    let parts1 := String.intercalate "-" (pySplitOn "-" word).tail
    if parts0.length ≤ target - 1 then
      (parts0 ++ "-", parts1)
    else
      ((word.take (target - 1)).push '-', word.drop (target - 1))
  else
    ((word.take (target - 1)).push '-', word.drop (target - 1))

/-- One step of the greedy word-accumulation loop of
`_wrap_label_intelligently`; state is (finished lines, current line). -/
def wrapStep (target : ℕ) (st : List String × String) (word : String) :
    List String × String :=
  let lines := st.1
  let currentLine := st.2
  let testLine := currentLine ++ (if currentLine ≠ "" then " " else "") ++ word
  if testLine.length ≤ target then
    (lines, testLine)
  else
    if currentLine ≠ "" then
      (lines ++ [currentLine], word)
    else
      if word.length > target then
        let (flushed, rest) := breakLongWord word target
        (lines ++ [flushed], rest)
      else
        (lines, word)

/-- Shallow embedding of `_wrap_label_intelligently`: greedy word wrap with
an adaptive target width; returns the lines joined with the literal
line-break marker and the line count. -/
def wrapLabelIntelligently (text : String) : String × ℕ :=
  if text = "" then ("", 1)
  else
    let words := pySplit text
    if words = [] then ("", 1)
    else
      let target := targetChars text.length
      let st := words.foldl (wrapStep target) ([], "")
      let lines := if st.2 ≠ "" then st.1 ++ [st.2] else st.1
      let lines := if lines = [] then [""] else lines
      (String.intercalate "<br>" lines, lines.length)

/-! ## Column widths and node dimensions -/

/-- Per-node derived dimensions (`node_dimensions` entries): width, height and
the wrapped label. -/
structure Dim where
  width : ℚ
  height : ℚ
  wrapped : String
deriving DecidableEq, Repr

/-- Placeholder used for a dimensions lookup that is provably total (the
dimensions dict covers every domain id of the same dataframe; see
`dims_covers`). -/
def defaultDim : Dim := ⟨0, 0, ""⟩

/-- Layout constants of `LayoutConfig`. -/
def xSpacing : ℚ := 17/5

/-- Local vertical spacing (`local_y_spacing = 0.7`). -/
def localYSpacing : ℚ := 7/10

/-- Tier vertical gap (`tier_vertical_gap = 0.6`). -/
def tierVerticalGap : ℚ := 3/5

/-- Sorted keys of `TIER_BAND_COLORS` (`sorted({1.0, 1.5, 2.0})`). -/
def tierBandKeys : List ℚ := [1, 3/2, 2]

/-- Shallow embedding of `_calculate_optimal_column_widths`: per X-group, the
width derived from the longest domain name in that column. -/
def calculateOptimalColumnWidths (nodes : List Node) : List (ℤ × ℚ) :=
  (uniqueFirst (nodes.map (·.xGroup))).foldl
    (fun columnWidths xGroup =>
      let columnNodes := nodes.filter (fun n => n.xGroup = xGroup)
      let longestName := columnNodes.foldl
        (fun acc n => if n.name.length > acc.length then n.name else acc) ""
      if longestName ≠ "" then
        let wrappedText := (wrapLabelIntelligently longestName).1
        let lines := pySplitOn "<br>" wrappedText
        let maxLineLength := (lines.map String.length).foldl max 0
        let optimalWidth :=
          min (max (4/5) ((maxLineLength : ℚ) * (7/100) + 1/4)) (8/5)
        ainsert columnWidths xGroup optimalWidth
      else
        ainsert columnWidths xGroup (9/10))
    []

/-- Shallow embedding of `_precalculate_node_dimensions`. -/
def precalculateNodeDimensions (nodes : List Node) : List (String × Dim) :=
  let columnWidths := calculateOptimalColumnWidths nodes
  nodes.foldl
    (fun dims n =>
      let nodeWidth := (alookup columnWidths n.xGroup).getD 0
      let wrapped := wrapLabelIntelligently n.name
      let totalHeight : ℚ := 9/50 + (wrapped.2 : ℚ) * (3/25)
      ainsert dims n.id ⟨nodeWidth, totalHeight, wrapped.1⟩)
    []

/-! ## Position assignment (`_assign_stacked_positions`) -/

/-- np.isclose with its default tolerances (`atol = 1e-8`, `rtol = 1e-5`). -/
def isClose (a b : ℚ) : Bool :=
  decide (|a - b| ≤ 1/100000000 + (1/100000) * |b|)

/-- Shallow embedding of `_calculate_tier_offsets`. -/
def calculateTierOffsets : List (ℚ × ℚ) :=
  tierBandKeys.enum.map (fun p => (p.2, (p.1 : ℚ) * tierVerticalGap * 6))

/-- Shallow embedding of `_calculate_y_grid`. -/
def calculateYGrid (count : ℕ) (ySpacing : ℚ) : List ℚ :=
  if count = 1 then [0]
  else
    let yGrid := linspaceQ 0 (((count : ℚ) - 1) * ySpacing) count
    yGrid.map (fun y => y - meanQ yGrid)

/-- Shallow embedding of `_has_intelligent_collisions`: each candidate
position is compared against the already committed coordinates of the same
X-group (and only those). -/
def hasIntelligentCollisions (yPositions heights : List ℚ)
    (usedCoords : List ((ℤ × ℚ) × ℚ)) (currentXGroup : ℤ) : Bool :=
  let minGap : ℚ := 3/20
  (yPositions.zip heights).any (fun yh =>
    let nodeTop := yh.1 + yh.2 / 2
    let nodeBottom := yh.1 - yh.2 / 2
    usedCoords.any (fun e =>
      decide (e.1.1 = currentXGroup) &&
        !(decide (nodeBottom > e.1.2 + e.2 / 2 + minGap) ||
          decide (nodeTop < e.1.2 - e.2 / 2 - minGap))))

/-- The bounded retry loop of `_assign_stacked_positions` (`for _ in
range(15)`): recompute the local grid, break on the first collision-free
spacing, otherwise grow the spacing by 8% and retry; after the last attempt
the (possibly colliding) grid is committed anyway. Called with `fuel = 14`
for the source's 15 attempts. -/
def findNonCollidingGrid (fuel : ℕ) (count : ℕ) (ySpacing : ℚ)
    (tierOffset : ℚ) (groupHeights : List ℚ)
    (usedYCoords : List ((ℤ × ℚ) × ℚ)) (xGroup : ℤ) : List ℚ :=
  let yGrid := calculateYGrid count ySpacing
  let yPositions := yGrid.map (fun off => tierOffset + off)
  if hasIntelligentCollisions yPositions groupHeights usedYCoords xGroup then
    match fuel with
    | 0 => yGrid
    | fuel' + 1 =>
      findNonCollidingGrid fuel' count (ySpacing * (27/25)) tierOffset
        groupHeights usedYCoords xGroup
  else yGrid

/-- Ordered insertion used by the stable sort: the new element goes after
every element that compares less-or-equal to it. -/
def insertOrdered {α : Type} (le : α → α → Bool) (a : α) : List α → List α
  | [] => [a]
  | b :: t => if le b a then b :: insertOrdered le a t else a :: b :: t

/-- Stable ascending sort (insertion sort). A stable sort under a total
preorder is unique, so this agrees with the stable sorts used by the source
(`sorted`, pandas `sort_values` and `groupby`). -/
def pyStableSort {α : Type} (le : α → α → Bool) (l : List α) : List α :=
  l.foldl (fun acc a => insertOrdered le a acc) []

/-- Ascending unique keys, as produced by a pandas `groupby` iteration. -/
def sortedUnique (l : List ℤ) : List ℤ :=
  pyStableSort (fun a b => decide (a ≤ b)) (uniqueFirst l)

/-- Shallow embedding of `_assign_stacked_positions`: per maturity tier
(ascending) and per X-group (ascending), nodes sorted by name get grid
positions from the bounded collision-avoidance loop; committed coordinates
are recorded per (xGroup, y) with their height. -/
def assignStackedPositions (nodes : List Node) :
    List (String × (ℚ × ℚ)) :=
  let nodeDims := precalculateNodeDimensions nodes
  let tierOffsets := calculateTierOffsets
  let final := tierBandKeys.foldl
    (fun st tier =>
      let tierDf := nodes.filter (fun n => isClose n.maturity tier)
      (sortedUnique (tierDf.map (·.xGroup))).foldl
        (fun st xGroup =>
          let group := tierDf.filter (fun n => n.xGroup = xGroup)
          let sortedGroup := pyStableSort (fun a b => pyStrLe a.name b.name) group
          let count := sortedGroup.length
          let groupHeights := sortedGroup.map
            (fun n => ((alookup nodeDims n.id).getD defaultDim).height)
          let tierOffset := (alookup tierOffsets tier).getD 0
          let yGrid := findNonCollidingGrid 14 count localYSpacing tierOffset
            groupHeights st.2 xGroup
          (yGrid.zip (groupHeights.zip sortedGroup)).foldl
            (fun st2 p =>
              let x := (xGroup : ℚ) * xSpacing
              let y := tierOffset + p.1
              (ainsert st2.1 p.2.2.id (x, y), ainsert st2.2 (xGroup, y) p.2.1))
            st)
        st)
    (([] : List (String × (ℚ × ℚ))), ([] : List ((ℤ × ℚ) × ℚ)))
  final.1

/-! ## NetworkX graph model (`_build_networkx_graph`) -/

/-- Edge attribute dict stored by `G.add_edge`. -/
structure EdgeData where
  weight : ℚ
  tier : ℤ
  description : String
deriving DecidableEq, Repr

/-- Node attribute dict stored by `G.add_node`. The `glow` and `opacity`
keys only exist after `_apply_node_styles` has run, hence `Option`; `border`
is overwritten in place by the style pass. -/
structure NodeAttrs where
  label : String
  wrappedLabel : String
  category : String
  color : String
  border : String
  originalBorder : String
  pos : ℚ × ℚ
  width : ℚ
  height : ℚ
  glow : Option Bool := none
  opacity : Option ℚ := none
deriving DecidableEq, Repr

/-- Graph node: an id plus its attribute dict. Nodes that networkx
auto-creates from a dangling edge endpoint carry no attributes (`none`). -/
structure GNode where
  id : String
  attrs : Option NodeAttrs
deriving DecidableEq, Repr

/-- Insertion-ordered directed graph, mirroring `nx.DiGraph`: node list plus
edge dict keyed by (source, target) (re-adding an edge overwrites its
data). -/
structure Graph where
  nodes : List GNode
  edges : List ((String × String) × EdgeData)
deriving DecidableEq, Repr

/-- Node ids in insertion order (`G.nodes()`). -/
def Graph.nodeIds (G : Graph) : List String :=
  G.nodes.map (·.id)

/-- Attribute dict of a node (`G.nodes[i]` plus a key access): `KeyError`
when the node is absent or was auto-created without attributes. -/
def Graph.getAttr (G : Graph) (i : String) : Except String NodeAttrs :=
  match G.nodes.find? (fun gn => decide (gn.id = i)) with
  | some gn =>
    match gn.attrs with
    | some a => .ok a
    | none => .error "KeyError"
  | none => .error "KeyError"

/-- Incoming edges of a node (`G.in_edges(v)` with their data). -/
def Graph.inEdges (G : Graph) (v : String) :
    List ((String × String) × EdgeData) :=
  G.edges.filter (fun e => decide (e.1.2 = v))

/-- Outgoing edges of a node (`G.out_edges(u)` with their data). -/
def Graph.outEdges (G : Graph) (u : String) :
    List ((String × String) × EdgeData) :=
  G.edges.filter (fun e => decide (e.1.1 = u))

/-- `G.add_node` with a full attribute dict: replaces the attributes of an
existing node, appends a new node otherwise. -/
def Graph.addNode (G : Graph) (i : String) (a : NodeAttrs) : Graph :=
  if G.nodes.any (fun gn => decide (gn.id = i)) then
    { G with nodes := (G.nodes.map
        (fun gn => if gn.id = i then { gn with attrs := some a } else gn)) }
  else
    { G with nodes := G.nodes ++ [⟨i, some a⟩] }

/-- `G.add_edge`: auto-creates missing endpoints (without attributes) and
inserts or overwrites the edge data. -/
def Graph.addEdge (G : Graph) (u v : String) (d : EdgeData) : Graph :=
  let G := if G.nodes.any (fun gn => decide (gn.id = u)) then G
    else { G with nodes := G.nodes ++ [⟨u, none⟩] }
  let G := if G.nodes.any (fun gn => decide (gn.id = v)) then G
    else { G with nodes := G.nodes ++ [⟨v, none⟩] }
  { G with edges := ainsert G.edges (u, v) d }

/-- `nx.get_node_attributes(G, "pos")`: the id → position dict over the
nodes that carry the attribute. -/
def Graph.posMap (G : Graph) : List (String × (ℚ × ℚ)) :=
  G.nodes.filterMap (fun gn => gn.attrs.map (fun a => (gn.id, a.pos)))

/-- Shallow embedding of `_build_networkx_graph`: nodes (with dimensions and
positions) first, then edges. The position subscript is the only point that
can raise. -/
def buildNetworkxGraph (m : Model) (positions : List (String × (ℚ × ℚ))) :
    Except String Graph := do
  let nodeDims := precalculateNodeDimensions m.nodes
  let G0 ← m.nodes.foldlM
    (fun (G : Graph) n => do
      let dim := (alookup nodeDims n.id).getD defaultDim
      let p ← exlookup positions n.id
      pure (G.addNode n.id
        { label := n.name, wrappedLabel := dim.wrapped, category := n.category,
          color := n.colorHex, border := n.borderHex,
          originalBorder := n.borderHex, pos := p,
          width := dim.width, height := dim.height }))
    ⟨[], []⟩
  pure (m.edges.foldl
    (fun G e => G.addEdge e.source e.target ⟨e.weight, e.tier, e.description⟩)
    G0)

/-! ## Interaction state (`_determine_interaction_state`) -/

/-- Shallow embedding of `_determine_interaction_state`: highlighted,
secondary and dimmed node sets as a function of selection, hover and mode.
Note that only the filter-mode early return treats the "All" sentinel. -/
def determineInteractionState (G : Graph) (selected hovered0 : Option String)
    (mode : String) : List String × List String × List String :=
  let hovered := if hovered0 = some "RESET" then none else hovered0
  if mode = "filter" ∧ (selected = none ∨ selected = some "All") then
    ([], [], [])
  else
    let hs :=
      match selected with
      | some s =>
        if s ≠ "" ∧ s ∈ G.nodeIds then
          (setAdd [] s,
           setUpdate
             (setUpdate []
               ((G.outEdges s).map
                 (fun (e : (String × String) × EdgeData) => e.1.2)))
             ((G.inEdges s).map
               (fun (e : (String × String) × EdgeData) => e.1.1)))
        else ([], [])
      | none => ([], [])
    let highlightNodes :=
      match hovered with
      | some h =>
        if h ≠ "" ∧ some h ≠ selected ∧ h ∈ G.nodeIds then setAdd hs.1 h
        else hs.1
      | none => hs.1
    let secondaryNodes := hs.2
    let dimNodes :=
      if mode = "filter" then
        G.nodeIds.filter
          (fun n => n ∉ highlightNodes ∧ n ∉ secondaryNodes)
      else if mode = "interactive" ∧ pyTruthy selected then
        G.nodeIds.filter
          (fun n => n ∉ highlightNodes ∧ n ∉ secondaryNodes)
      else []
    (highlightNodes, secondaryNodes, dimNodes)

/-! ## Node styles (`_apply_node_styles`) -/

/-- The `NodeStyle` dataclass. -/
structure NodeStyle where
  glow : Bool := false
  opacity : ℚ := 1
  border : String := "#000000"
  originalBorder : String := "#000000"
deriving DecidableEq, Repr

/-- Loop body of `_apply_node_styles` for one node: build the `NodeStyle`
(selected overrides, hover overrides, dim last) and write it back into the
node's attribute dict. -/
def styleOne (G : Graph) (selected hovered : Option String)
    (dimNodes : List String) (gn : GNode) : Except String GNode := do
  let a ← G.getAttr gn.id
  let style : NodeStyle :=
    { glow := false, opacity := 1,
      border := a.originalBorder, originalBorder := a.originalBorder }
  let style :=
    if some gn.id = selected then
      { style with border := "#000000", opacity := 1 }
    else style
  let style :=
    if some gn.id = hovered then
      { style with
        glow := true
        border := (if some gn.id ≠ selected then "#FFD700" else style.border) }
    else style
  let style :=
    if dimNodes ≠ [] ∧ gn.id ∈ dimNodes then
      { style with opacity := 1/5 }
    else style
  pure { gn with attrs := (some
    { a with
      glow := some style.glow
      opacity := some style.opacity
      border := style.border }) }

/-- Shallow embedding of `_apply_node_styles`: functional version of the
in-place node mutation; reading `original_border` of an attribute-less node
raises. -/
def applyNodeStyles (G : Graph) (selected hovered0 : Option String)
    (dimNodes : List String) : Except String Graph := do
  let hovered := if hovered0 = some "RESET" then none else hovered0
  let newNodes ← G.nodes.mapM (styleOne G selected hovered dimNodes)
  pure { G with nodes := newNodes }

/-! ## Visibility (`_determine_visible_elements`, `_get_directional_edges`) -/

/-- Shallow embedding of `_get_directional_edges`: incoming edges when
"upstream" is allowed, then outgoing edges when "downstream" is allowed. -/
def getDirectionalEdges (G : Graph) (node : String)
    (directions : List String) : List ((String × String) × EdgeData) :=
  (if "upstream" ∈ directions then G.inEdges node else []) ++
    (if "downstream" ∈ directions then G.outEdges node else [])

/-- Shallow embedding of `_determine_visible_elements`: the "All" sentinel is
normalised here; with a valid selection only the selected node plus the
endpoints of its directional edges are visible, otherwise everything is. -/
def determineVisibleElements (G : Graph) (selected0 hovered0 : Option String)
    (directions : List String) (mode : String) :
    List String × List ((String × String) × EdgeData) :=
  let _hovered := if hovered0 = some "RESET" then none else hovered0
  let allNodes := G.nodeIds
  let selected := if selected0 = some "All" then none else selected0
  if mode = "filter" then
    match selected with
    | some s =>
      if s ≠ "" ∧ s ∈ allNodes then
        let visibleEdges := getDirectionalEdges G s directions
        let visibleNodes := visibleEdges.foldl
          (fun acc e => setAdd (setAdd acc e.1.1) e.1.2) (setAdd [] s)
        (visibleNodes, visibleEdges)
      else (allNodes, G.edges)
    | none => (allNodes, G.edges)
  else if mode = "interactive" then
    match selected with
    | some s =>
      if s ≠ "" ∧ s ∈ allNodes then
        let visibleEdges := getDirectionalEdges G s directions
        let visibleNodes := visibleEdges.foldl
          (fun acc e => setAdd (setAdd acc e.1.1) e.1.2) (setAdd [] s)
        (visibleNodes, visibleEdges)
      else (allNodes, G.edges)
    | none => (allNodes, G.edges)
  else ([], [])

/-! ## Edge colors (`_get_edge_color`, `_adjust_brightness`) -/

/-- Value of one hex digit, as `int(..., 16)` computes it on the well-formed
colour literals this module passes around. -/
def hexDigitVal (c : Char) : ℕ :=
  if '0' ≤ c ∧ c ≤ '9' then c.toNat - 48
  else if 'a' ≤ c ∧ c ≤ 'f' then c.toNat - 87
  else if 'A' ≤ c ∧ c ≤ 'F' then c.toNat - 55
  else 0

/-- RGB triple of a hex colour string after `lstrip("#")`. -/
def rgbOfHex (s : String) : List ℕ :=
  let cs := s.data.dropWhile (fun c => c = '#')
  [16 * hexDigitVal (cs.getD 0 '0') + hexDigitVal (cs.getD 1 '0'),
   16 * hexDigitVal (cs.getD 2 '0') + hexDigitVal (cs.getD 3 '0'),
   16 * hexDigitVal (cs.getD 4 '0') + hexDigitVal (cs.getD 5 '0')]

/-- Shallow embedding of `_adjust_brightness`: blend each channel toward
white for a positive shift, toward black otherwise, truncating to int, and
render as an `rgb(r,g,b)` string. -/
def adjustBrightness (hexColor : String) (shift : ℚ) : String :=
  let rgb := rgbOfHex hexColor
  let blend : ℕ → ℤ :=
    if 0 < shift then fun c => pyInt ((c : ℚ) + ((255 : ℚ) - (c : ℚ)) * shift)
    else fun c => pyInt ((c : ℚ) * (1 + shift))
  let adjusted := rgb.map blend
  "rgb(" ++ toString (adjusted.getD 0 0) ++ "," ++
    toString (adjusted.getD 1 0) ++ "," ++ toString (adjusted.getD 2 0) ++ ")"

/-- The `BRIGHTNESS_MAP` class constant. -/
def brightnessMap : List (ℤ × ℚ) := [(2, 3/10), (3, 0), (4, -3/10)]

/-- Shallow embedding of `_get_edge_color`: base colour from the unordered
pair of endpoint X-groups, then tier-driven brightness adjustment. -/
def getEdgeColor (xu xv : ℤ) (tier : ℤ) : String :=
  let tierPair : Finset ℤ := {xu, xv}
  let baseColor :=
    if tierPair = {1, 2} then "#4A90E2"
    else if tierPair = {1, 3} ∨ tierPair = {2, 3} then "#72CBE2"
    else if (tierPair ∩ {1, 2, 3}).Nonempty ∧ 4 ∈ tierPair then "#A680B8"
    else "#4A90E2"
  let brightnessShift := (alookup brightnessMap tier).getD 0
  adjustBrightness baseColor brightnessShift

/-! ## Edge geometry -/

/-- Shallow embedding of `_generate_true_s_curve` (the sigmoid goes through
the uninterpreted `rexp`). -/
def generateTrueSCurve (rf : RealFuns) (x0 y0 x1 y1 : ℚ) (resolution : ℕ)
    (steepness : ℚ) : List ℚ × List ℚ :=
  let t := linspaceQ 0 1 resolution
  let s := t.map (fun ti => 1 / (1 + rf.rexp (-(steepness * (ti - 1/2)))))
  let dx := x1 - x0
  let dy := y1 - y0
  (t.map (fun ti => x0 + dx * ti), s.map (fun si => y0 + dy * si))

/-- Shallow embedding of `_generate_flat_side_arc` (cubic Bezier, exact). -/
def generateFlatSideArc (x0 y0 x1 y1 : ℚ) (direction : String) (offset : ℚ)
    (resolution : ℕ) : List ℚ × List ℚ :=
  let t := linspaceQ 0 1 resolution
  let arcShift := if direction = "right" then offset else -offset
  let c1x := x0 + arcShift
  let c2x := x1 + arcShift
  ((t.map (fun ti => (1-ti)^3 * x0 + 3*(1-ti)^2*ti*c1x +
      3*(1-ti)*ti^2*c2x + ti^3*x1)),
   (t.map (fun ti => (1-ti)^3 * y0 + 3*(1-ti)^2*ti*y0 +
      3*(1-ti)*ti^2*y1 + ti^3*y1)))

/-- Shallow embedding of `_generate_same_x_edge`. -/
def generateSameXEdge (x0 y0 x1 y1 : ℚ) (direction : String)
    (nodeWidth : ℚ) : List ℚ × List ℚ :=
  if direction = "right" then
    generateFlatSideArc (x0 + nodeWidth/2) y0 (x1 + nodeWidth/2) y1 direction (3/5) 50
  else
    generateFlatSideArc (x0 - nodeWidth/2) y0 (x1 - nodeWidth/2) y1 direction (3/5) 50

/-- Shallow embedding of `_generate_different_x_edge` (steepness keeps the
callee's default of 15, as in the source call). -/
def generateDifferentXEdge (rf : RealFuns) (x0 y0 x1 y1 : ℚ) (xu xv : ℤ)
    (sourceWidth targetWidth : ℚ) : List ℚ × List ℚ :=
  if xu < xv then
    generateTrueSCurve rf (x0 + sourceWidth/2) y0 (x1 - targetWidth/2) y1 50 15
  else if xv < xu then
    generateTrueSCurve rf (x0 - sourceWidth/2) y0 (x1 + targetWidth/2) y1 50 15
  else
    generateTrueSCurve rf x0 y0 x1 y1 50 15

/-- Triangular arrowhead data (`_create_clean_arrow_shape` when it returns a
non-empty dict). -/
structure ArrowData where
  tipX : ℚ
  tipY : ℚ
  wing1X : ℚ
  wing1Y : ℚ
  wing2X : ℚ
  wing2Y : ℚ
  fillcolor : String
  opacity : ℚ
deriving DecidableEq, Repr

/-- Shallow embedding of `_create_clean_arrow_shape`; `none` models the empty
dict returned for degenerate curves. -/
def createCleanArrowShape (rf : RealFuns) (edgeX edgeY : List ℚ)
    (edgeColor : String) (edgeOpacity : ℚ) : Option ArrowData :=
  if edgeX.length < 2 then none
  else
    let tipX := edgeX.getLastD 0
    let tipY := edgeY.getLastD 0
    let numPoints := min 5 edgeX.length
    let baseX := meanQ ((edgeX.drop (edgeX.length - numPoints)).dropLast)
    let baseY := meanQ ((edgeY.drop (edgeY.length - numPoints)).dropLast)
    let dx := tipX - baseX
    let dy := tipY - baseY
    let length := rf.rsqrt (dx^2 + dy^2)
    if 0 < length then
      let dxn := dx / length
      let dyn := dy / length
      let px := -dyn
      let py := dxn
      let arrowLength : ℚ := 2/25
      let arrowWidth : ℚ := 1/25
      let bpx := tipX - dxn * arrowLength
      let bpy := tipY - dyn * arrowLength
      some ⟨tipX, tipY, bpx + px*arrowWidth, bpy + py*arrowWidth,
            bpx - px*arrowWidth, bpy - py*arrowWidth, edgeColor, edgeOpacity⟩
    else none

/-! ## Edge traces (`_create_edge_traces`) -/

/-- One `go.Scatter` line trace for an edge. -/
structure EdgeTrace where
  xs : List ℚ
  ys : List ℚ
  lineWidth : ℚ
  color : String
  opacity : ℚ
  text : String
deriving DecidableEq, Repr

/-- The `TIER_LABEL_MAP` class constant. -/
def tierLabelMap : List (ℤ × String) :=
  [(1, "Optimizer"), (2, "Optimizer"), (3, "Partial Blocker"), (4, "Blocker")]

/-- `nodes_df[nodes_df["DOMAIN_ID"] == u]["X_GROUP"].values[0]`: first
matching row or `IndexError`. -/
def dfXGroup (m : Model) (u : String) : Except String ℤ :=
  match m.nodes.find? (fun n => decide (n.id = u)) with
  | some n => .ok n.xGroup
  | none => .error "IndexError"

/-- Loop body of `_create_edge_traces` for one visible edge: curve, colour,
trace record and arrowhead. -/
def edgeTraceOne (rf : RealFuns) (m : Model) (G : Graph)
    (pos : List (String × (ℚ × ℚ)))
    (ed : (String × String) × EdgeData) :
    Except String (EdgeTrace × Option ArrowData) := do
  let u := ed.1.1
  let v := ed.1.2
  let data := ed.2
  let p0 ← exlookup pos u
  let p1 ← exlookup pos v
  let xu ← dfXGroup m u
  let xv ← dfXGroup m v
  let au ← G.getAttr u
  let av ← G.getAttr v
  let edgeColor := getEdgeColor xu xv data.tier
  let curve :=
    if xu = xv then
      let direction := if u = v then "right" else "left"
      generateSameXEdge p0.1 p0.2 p1.1 p1.2 direction au.width
    else
      generateDifferentXEdge rf p0.1 p0.2 p1.1 p1.2 xu xv au.width av.width
  let edgeOpacity : ℚ := 3/5
  let tierLabel :=
    (alookup tierLabelMap data.tier).getD ("Tier " ++ toString data.tier)
  let text := "<b>" ++ au.label ++ "  ➔  " ++ av.label ++ "</b><br>" ++
    data.description ++ "<br>Dependency Type: <b>" ++ tierLabel ++ "</b>"
  pure (({ xs := curve.1, ys := curve.2, lineWidth := 3 * data.weight,
           color := edgeColor, opacity := edgeOpacity, text := text } : EdgeTrace),
        createCleanArrowShape rf curve.1 curve.2 edgeColor edgeOpacity)

/-- Shallow embedding of `_create_edge_traces`: per visible edge a line
trace (opacity 0.6, width 3×weight, tier/group-derived colour) and an
arrowhead shape. The `mode` and `visibleNodes` arguments are accepted and
unused, as in the source. -/
def createEdgeTraces (rf : RealFuns) (m : Model) (G : Graph)
    (pos : List (String × (ℚ × ℚ)))
    (visibleEdges : List ((String × String) × EdgeData))
    (_visibleNodes : List String) (_mode : String) :
    Except String (List EdgeTrace × List (Option ArrowData)) := do
  let pairs ← visibleEdges.mapM (edgeTraceOne rf m G pos)
  pure (pairs.map Prod.fst, pairs.map Prod.snd)

/-! ## Tier backgrounds and annotations -/

/-- Python `max` over a list; callers guard against the empty sequence. -/
def listMax (l : List ℚ) : ℚ :=
  match l with
  | [] => 0
  | h :: t => t.foldl max h

/-- Python `min` over a list; callers guard against the empty sequence. -/
def listMin (l : List ℚ) : ℚ :=
  match l with
  | [] => 0
  | h :: t => t.foldl min h

/-- Background band rectangle (`type="rect"`, opacity 0.3, layer below). -/
structure BgShape where
  x0 : ℚ
  x1 : ℚ
  y0 : ℚ
  y1 : ℚ
  fillcolor : String
  opacity : ℚ
deriving DecidableEq, Repr

/-- Text annotation of the figure (coordinates, text and opacity; the static
font and anchoring fields are omitted). -/
structure Annot where
  x : ℚ
  y : ℚ
  text : String
  opacity : ℚ
deriving DecidableEq, Repr

/-- The `TIER_BAND_COLORS` class constant. -/
def tierBandColors : List (ℚ × String) :=
  [(1, "#fde2e2"), (3/2, "#ffeeba"), (2, "#fff9c4")]

/-- Decimal rendering of the integral / half-integral tier keys, matching
Python float formatting for the values 1.0, 1.5 and 2.0. -/
def tierKeyStr (q : ℚ) : String :=
  if q.den = 1 then toString q.num ++ ".0"
  else toString ((q.num - 1) / 2) ++ ".5"

/-- Shallow embedding of `_calculate_tier_extents`: per maturity tier, the
list of (top, bottom) vertical extents of its nodes. -/
def calculateTierExtents (m : Model) (G : Graph)
    (pos : List (String × (ℚ × ℚ))) :
    Except String (List (ℚ × List (ℚ × ℚ))) := do
  G.nodes.foldlM
    (fun acc gn => do
      let p ← exlookup pos gn.id
      let a ← G.getAttr gn.id
      let tier ←
        match m.nodes.find? (fun n => decide (n.id = gn.id)) with
        | some n => Except.ok n.maturity
        | none => Except.error "IndexError"
      let top := p.2 + a.height/2
      let bottom := p.2 - a.height/2
      pure (match alookup acc tier with
        | some l => ainsert acc tier (l ++ [(top, bottom)])
        | none => ainsert acc tier [(top, bottom)]))
    []

/-- Shallow embedding of `_calculate_tier_boundaries`. -/
def calculateTierBoundaries (extents : List (ℚ × List (ℚ × ℚ))) :
    List (ℚ × ℚ) × List (ℚ × ℚ) :=
  (extents.map (fun p =>
     (p.1, listMax (p.2.map Prod.fst) +
       (1/2) * meanQ (p.2.map (fun b => b.1 - b.2)))),
   extents.map (fun p =>
     (p.1, listMin (p.2.map Prod.snd) -
       (1/2) * meanQ (p.2.map (fun b => b.1 - b.2)))))

/-- Shallow embedding of `_calculate_tier_band_bounds`. -/
def calculateTierBandBounds (tier : ℚ) (tops bottoms : List (ℚ × ℚ)) :
    Except String (ℚ × ℚ) := do
  if tier = 1 ∧ (alookup tops (3/2)).isSome ∧ (alookup bottoms tier).isSome then do
    let top ← exlookup bottoms tier
    let t1 ← exlookup tops tier
    let b15 ← exlookup bottoms (3/2)
    let bottom := (t1 + b15) / 2
    pure (min top bottom, max top bottom)
  else if tier = 3/2 ∧ (alookup tops 1).isSome ∧ (alookup bottoms 2).isSome then do
    let t1 ← exlookup tops 1
    let b15 ← exlookup bottoms (3/2)
    let top := (t1 + b15) / 2
    let t15 ← exlookup tops (3/2)
    let b2 ← exlookup bottoms 2
    let bottom := (t15 + b2) / 2
    pure (min top bottom, max top bottom)
  else if tier = 2 ∧ (alookup tops (3/2)).isSome ∧ (alookup tops tier).isSome then do
    let t15 ← exlookup tops (3/2)
    let b2 ← exlookup bottoms 2
    let top := (t15 + b2) / 2
    let bottom ← exlookup tops tier
    pure (min top bottom, max top bottom)
  else do
    let top ← exlookup bottoms tier
    let bottom ← exlookup tops tier
    pure (min top bottom, max top bottom)

/-- Shallow embedding of `_create_tier_backgrounds`. -/
def createTierBackgrounds (m : Model) (G : Graph)
    (pos : List (String × (ℚ × ℚ))) :
    Except String (List BgShape × List Annot) := do
  let nodeXCoords := pos.map (fun p => p.2.1)
  let nodeWidths ← G.nodes.mapM (fun gn => (G.getAttr gn.id).map (·.width))
  let maxNodeWidth := if nodeWidths ≠ [] then listMax nodeWidths else 4/5
  let edgeExtension : ℚ := 6/5
  if nodeXCoords = [] then throw "ValueError: min() arg is an empty sequence"
  else
    let xMin := listMin nodeXCoords - maxNodeWidth/2 - edgeExtension
    let xMax := listMax nodeXCoords + maxNodeWidth/2 + edgeExtension
    let extents ← calculateTierExtents m G pos
    let bd := calculateTierBoundaries extents
    let res ← ([1, 3/2, 2] : List ℚ).foldlM
      (fun (acc : List BgShape × List Annot) tier => do
        if (alookup extents tier).isNone then pure acc
        else do
          let color := (alookup tierBandColors tier).getD "#ffffff"
          let b ← calculateTierBandBounds tier bd.1 bd.2
          let tierCenter := (b.1 + b.2) / 2
          pure (acc.1 ++ [{ x0 := xMin, x1 := xMax, y0 := b.1, y1 := b.2,
                            fillcolor := color, opacity := 3/10 }],
                acc.2 ++ [{ x := xMin - 3/10, y := tierCenter,
                            text := "<b>Tier " ++ tierKeyStr tier ++ "</b>",
                            opacity := 1 }]))
      ([], [])
    pure res

/-! ## Node shapes and annotations -/

/-- Rounded-rectangle node shape (numeric fields of the SVG path plus
style). -/
structure NodeShape where
  x0 : ℚ
  y0 : ℚ
  x1 : ℚ
  y1 : ℚ
  r : ℚ
  fillcolor : String
  borderColor : String
  opacity : ℚ
deriving DecidableEq, Repr

/-- Corner radius (`corner_radius = 0.06`). -/
def cornerRadius : ℚ := 3/50

/-- Loop body of `_create_node_shapes_and_annotations` for one node: the
rounded-rectangle shape and the centred text label, both at the node's
resolved opacity. -/
def nodeShapeOne (G : Graph) (pos : List (String × (ℚ × ℚ)))
    (gn : GNode) : Except String (NodeShape × Annot) := do
  let p ← exlookup pos gn.id
  let a ← G.getAttr gn.id
  let shape : NodeShape :=
    { x0 := p.1 - a.width/2, y0 := p.2 - a.height/2,
      x1 := p.1 + a.width/2, y1 := p.2 + a.height/2,
      r := cornerRadius, fillcolor := a.color, borderColor := a.border,
      opacity := a.opacity.getD 1 }
  let annot : Annot :=
    { x := p.1, y := p.2, text := a.wrappedLabel,
      opacity := a.opacity.getD 1 }
  pure (shape, annot)

/-- Shallow embedding of `_create_node_shapes_and_annotations`. Note that the
loop runs over all graph nodes; the `visibleNodes` parameter is accepted and
never consulted, exactly as in the source. -/
def createNodeShapesAndAnnots (G : Graph) (pos : List (String × (ℚ × ℚ)))
    (_visibleNodes : List String) :
    Except String (List NodeShape × List Annot) := do
  let pairs ← G.nodes.mapM (nodeShapeOne G pos)
  pure (pairs.map Prod.fst, pairs.map Prod.snd)

/-! ## X-group annotations, hit-test trace, bounds -/

/-- The `X_GROUP_LABELS` class constant. -/
def xGroupLabels : List (ℤ × String) :=
  [(1, "Foundational Domains"), (2, "Tier 1 Dependency Domains"),
   (3, "Tier 2 Dependency Domains"), (4, "Resulting Domains")]

/-- Shallow embedding of `_create_x_group_annotations`: bucket placed nodes
by X-group into a dict preseeded with the four labelled groups (an X-group
outside 1..4 raises `KeyError`), then emit one centred label per non-empty
group. -/
def createXGroupAnnots (m : Model) (pos : List (String × (ℚ × ℚ)))
    (tierTops : List (ℚ × ℚ)) : Except String (List Annot) := do
  let init : List (ℤ × List (ℚ × ℚ)) := xGroupLabels.map (fun p => (p.1, []))
  let xgp ← pos.foldlM
    (fun acc p => do
      let xg ← dfXGroup m p.1
      match alookup acc xg with
      | some l => pure (ainsert acc xg (l ++ [p.2]))
      | none => Except.error "KeyError")
    init
  let maxY ←
    if pos = [] then throw "ValueError: max() arg is an empty sequence"
    else pure (listMax (pos.map (fun p => p.2.2)))
  let xLabelY := ((alookup tierTops 2).getD maxY) + 3/5
  pure (xgp.foldl
    (fun anns p =>
      if p.2 = [] then anns
      else
        let xCenter := meanQ (p.2.map Prod.fst)
        anns ++ [{ x := xCenter, y := xLabelY,
                   text := "<b>" ++
                     ((alookup xGroupLabels p.1).getD
                       ("Group " ++ toString p.1)) ++ "</b>",
                   opacity := 1 }])
    [])

/-- The transparent hit-test scatter trace
(`_create_interactive_node_trace`). -/
structure InteractiveTrace where
  xs : List ℚ
  ys : List ℚ
  texts : List String
  customdata : List String
  sizes : List ℚ
deriving DecidableEq, Repr

/-- Shallow embedding of `_create_interactive_node_trace`. -/
def createInteractiveNodeTrace (m : Model) (G : Graph)
    (pos : List (String × (ℚ × ℚ))) : Except String InteractiveTrace := do
  let rows ← G.nodes.mapM (fun gn => do
    let p ← exlookup pos gn.id
    let a ← G.getAttr gn.id
    pure (p.1, p.2, a.label, gn.id))
  let sizes := (precalculateNodeDimensions m.nodes).map
    (fun p => max p.2.width p.2.height * 100)
  pure { xs := rows.map (fun r => r.1), ys := rows.map (fun r => r.2.1),
         texts := rows.map (fun r => r.2.2.1),
         customdata := rows.map (fun r => r.2.2.2), sizes := sizes }

/-- Shallow embedding of `_calculate_figure_height`. -/
def calculateFigureHeight (pos : List (String × (ℚ × ℚ))) :
    Except String ℤ := do
  if pos = [] then throw "ValueError: max() arg is an empty sequence"
  else
    let ys := pos.map (fun p => p.2.2)
    let yRange := listMax ys - listMin ys
    pure (max 900 (pyInt ((yRange + 2) * 150)))

/-- Shallow embedding of `_calculate_plot_bounds`. -/
def calculatePlotBounds (pos : List (String × (ℚ × ℚ))) (G : Graph) :
    Except String (ℚ × ℚ × ℚ × ℚ) := do
  let nodeXCoords := pos.map (fun p => p.2.1)
  let nodeYCoords := pos.map (fun p => p.2.2)
  let nodeWidths ← G.nodes.mapM (fun gn => (G.getAttr gn.id).map (·.width))
  let nodeHeights ← G.nodes.mapM (fun gn => (G.getAttr gn.id).map (·.height))
  let maxNodeWidth := if nodeWidths ≠ [] then listMax nodeWidths else 4/5
  let maxNodeHeight := if nodeHeights ≠ [] then listMax nodeHeights else 3/10
  if nodeXCoords = [] then throw "ValueError: min() arg is an empty sequence"
  else
    let baseXMin := listMin nodeXCoords - maxNodeWidth/2
    let baseXMax := listMax nodeXCoords + maxNodeWidth/2
    let baseYMin := listMin nodeYCoords - maxNodeHeight/2
    let baseYMax := listMax nodeYCoords + maxNodeHeight/2
    let edgePadding : ℚ := 11/5
    let uiPaddingX : ℚ := 6/5
    let uiPaddingYBottom : ℚ := 4/5
    let uiPaddingYTop : ℚ := 3/2
    pure (baseXMin - edgePadding - uiPaddingX, baseXMax + edgePadding,
          baseYMin - uiPaddingYBottom, baseYMax + uiPaddingYTop)

/-! ## Figure assembly (`build_figure`) -/

/-- The assembled scene: every figure component `build_figure` hands to
Plotly, with the shape lists kept in their typed groups. -/
structure Scene where
  edgeTraces : List EdgeTrace
  interactiveTrace : InteractiveTrace
  tierBgShapes : List BgShape
  nodeShapes : List NodeShape
  arrowShapes : List (Option ArrowData)
  annots : List Annot
  height : ℤ
  xRange : ℚ × ℚ
  yRange : ℚ × ℚ
  datarevision : ℕ
deriving DecidableEq, Repr

/-- Shallow embedding of `build_figure`: the full eleven-step pipeline. The
`timestampMs` argument models `int(time.time() * 1000)`, the only wall-clock
input. -/
def buildFigure (rf : RealFuns) (m : Model) (selected : Option String)
    (directions : List String) (mode : String) (hovered : Option String)
    (timestampMs : ℕ) : Except String Scene := do
  let positions := assignStackedPositions m.nodes
  let G ← buildNetworkxGraph m positions
  let pos := G.posMap
  let inter := determineInteractionState G selected hovered mode
  let G ← applyNodeStyles G selected hovered inter.2.2
  let vis := determineVisibleElements G selected hovered directions mode
  let tracesArrows ←
    (if vis.2 ≠ [] then createEdgeTraces rf m G pos vis.2 vis.1 mode
     else pure ([], []))
  let bg ← createTierBackgrounds m G pos
  let shapesAnnots ← createNodeShapesAndAnnots G pos vis.1
  let extents ← calculateTierExtents m G pos
  let bd := calculateTierBoundaries extents
  let xgAnnots ← createXGroupAnnots m pos bd.1
  let interactiveTrace ← createInteractiveNodeTrace m G pos
  let height ← calculateFigureHeight pos
  let bounds ← calculatePlotBounds pos G
  let minXRange : ℚ := 33/2
  let xr :=
    if bounds.2.1 - bounds.1 < minXRange then
      let centerX := (bounds.1 + bounds.2.1) / 2
      (centerX - minXRange/2, centerX + minXRange/2)
    else (bounds.1, bounds.2.1)
  pure { edgeTraces := tracesArrows.1, interactiveTrace := interactiveTrace,
         tierBgShapes := bg.1, nodeShapes := shapesAnnots.1,
         arrowShapes := tracesArrows.2,
         annots := bg.2 ++ shapesAnnots.2 ++ xgAnnots,
         height := height, xRange := xr,
         yRange := (bounds.2.2.1, bounds.2.2.2), datarevision := timestampMs }

/-! ## Claim-side definitions and concrete fixtures -/

/-- Single-space join of a word list (the claim-side notion of putting the
whitespace-split words back together). -/
def joinSp : List String → String
  | [] => ""
  | [w] => w
  | w :: ws => w ++ " " ++ joinSp ws

/-- Stated from the claim's words (C7): the fixed base-colour table over the
unordered pair of endpoint X-groups. -/
def claimEdgeBaseColor (xu xv : ℤ) : String :=
  let pair : Finset ℤ := {xu, xv}
  if pair = {1, 2} then "#4A90E2"
  else if pair = {1, 3} ∨ pair = {2, 3} then "#72CBE2"
  else if 4 ∈ pair ∧ (pair ∩ {1, 2, 3}).Nonempty then "#A680B8"
  else "#4A90E2"

/-- Stated from the claim's words (C7): the brightness-shift map
of the edge tier. -/
def claimBrightnessShift (tier : ℤ) : ℚ :=
  if tier = 2 then 3/10
  else if tier = 3 then 0
  else if tier = 4 then -3/10
  else 0

/-- The five discrete maturity levels the spec's data model admits. -/
def fiveMaturityLevels : List ℚ := [1, 3/2, 2, 3, 4]

/-- Concrete interpretation of the uninterpreted float functions, for the
closed witness instances. -/
def wRF : RealFuns := ⟨fun _ => 0, fun _ => 0⟩

/-- Fixture model: three domains in the 1.0/1.5 maturity bands and one
dependency a → b. -/
def wModel : Model :=
  ⟨[⟨"a", "Alpha", 1, 1, "cat", "#f0f0f0", "#333"⟩,
    ⟨"b", "Beta", 2, 1, "cat", "#f0f0f0", "#333"⟩,
    ⟨"c", "Gamma", 2, 3/2, "cat", "#f0f0f0", "#333"⟩],
   [⟨"a", "b", 1, 1, "dep"⟩]⟩

/-- Fixture graph built from `wModel` through the real pipeline. -/
def wGraph : Graph :=
  (buildNetworkxGraph wModel (assignStackedPositions wModel.nodes)).toOption.getD ⟨[], []⟩

/-- Fixture position dict of `wGraph`. -/
def wPos : List (String × (ℚ × ℚ)) := wGraph.posMap

/-- Fixture model whose single domain has the spec-legal maturity level 3.0,
which the position pass never visits. -/
def mBadMat : Model := ⟨[⟨"z", "Zed", 1, 3, "cat", "#f0f0f0", "#333"⟩], []⟩

/-- Empty scene, used only as the default of a total projection in closed
witness statements. -/
def emptyScene : Scene :=
  ⟨[], ⟨[], [], [], [], []⟩, [], [], [], [], 0, (0, 0), (0, 0), 0⟩

/-- Fixture scene: the figure built from `wModel` with selection "a",
downstream only, filter mode. -/
def wScene : Scene :=
  (buildFigure wRF wModel (some "a") ["downstream"] "filter" none 7).toOption.getD
    emptyScene

/-! ## Infrastructure lemmas -/

/-- Looking up the freshly written key returns the new value. -/
theorem alookup_ainsert_self {K V : Type} [DecidableEq K]
    (d : List (K × V)) (k : K) (v : V) :
    alookup (ainsert d k v) k = some v := by
  induction d with
  | nil => simp [ainsert, alookup]
  | cons p d ih =>
    by_cases h : p.1 = k
    · simp [ainsert, alookup, h]
    · simp [ainsert, alookup, h, ih]

/-- Writing one key leaves the lookup of any other key unchanged. -/
theorem alookup_ainsert_ne {K V : Type} [DecidableEq K]
    (d : List (K × V)) (k k' : K) (v : V) (h : k' ≠ k) :
    alookup (ainsert d k v) k' = alookup d k' := by
  induction d with
  | nil =>
    simp only [ainsert, alookup]
    rw [if_neg (fun hh => h (Eq.symm hh))]
  | cons p d ih =>
    by_cases hp : p.1 = k
    · simp only [ainsert, if_pos hp, alookup]
      rw [if_neg (fun hh => h (Eq.symm hh)),
        if_neg (fun hh => h (Eq.symm (hp ▸ hh)))]
    · simp only [ainsert, if_neg hp, alookup]
      by_cases hp' : p.1 = k'
      · rw [if_pos hp', if_pos hp']
      · rw [if_neg hp', if_neg hp', ih]

/-- A key present before an `ainsert` stays present after it. -/
theorem alookup_ainsert_isSome {K V : Type} [DecidableEq K]
    (d : List (K × V)) (k k' : K) (v : V)
    (h : (alookup d k').isSome) :
    (alookup (ainsert d k v) k').isSome := by
  by_cases he : k' = k
  · subst he; simp [alookup_ainsert_self]
  · rw [alookup_ainsert_ne d k k' v he]; exact h

/-- Key presence is invariant under a value-only transformation of an
association list. -/
theorem alookup_map_val_isSome {K V W : Type} [DecidableEq K]
    (l : List (K × V)) (f : K × V → W) (k : K) :
    (alookup (l.map (fun p => (p.1, f p))) k).isSome =
      (alookup l k).isSome := by
  induction l with
  | nil => simp [alookup]
  | cons p t ih =>
    by_cases h : p.1 = k
    · simp [alookup, h]
    · simp [alookup, h, ih]

/-- Membership in a Python-set `add`. -/
theorem mem_setAdd {s : List String} {x y : String} :
    y ∈ setAdd s x ↔ y ∈ s ∨ y = x := by
  unfold setAdd
  by_cases h : x ∈ s
  · simp [h]
    intro he; subst he; exact h
  · simp [h]

/-- Membership in a Python-set `update`. -/
theorem mem_setUpdate {xs : List String} {s : List String} {y : String} :
    y ∈ setUpdate s xs ↔ y ∈ s ∨ y ∈ xs := by
  unfold setUpdate
  induction xs generalizing s with
  | nil => simp
  | cons x t ih =>
    simp only [List.foldl_cons, ih, mem_setAdd, List.mem_cons]
    tauto

/-- Membership survives `uniqueFirst`. -/
theorem mem_uniqueFirst {α : Type} [DecidableEq α] {l : List α} {x : α} :
    x ∈ uniqueFirst l ↔ x ∈ l := by
  unfold uniqueFirst
  suffices h : ∀ acc : List α,
      x ∈ l.foldl (fun acc a => if a ∈ acc then acc else acc ++ [a]) acc ↔
        x ∈ acc ∨ x ∈ l by
    simpa using h []
  induction l with
  | nil => intro acc; simp
  | cons a t ih =>
    intro acc
    by_cases ha : a ∈ acc
    · simp only [List.foldl_cons, if_pos ha, ih, List.mem_cons]
      constructor
      · rintro (h | h)
        · exact .inl h
        · exact .inr (.inr h)
      · rintro (h | h | h)
        · exact .inl h
        · exact .inl (h ▸ ha)
        · exact .inr h
    · simp only [List.foldl_cons, if_neg ha, ih, List.mem_append,
        List.mem_singleton, List.mem_cons]
      tauto

/-- Membership in an ordered insertion. -/
theorem mem_insertOrdered {α : Type} (le : α → α → Bool) (a x : α)
    (l : List α) : x ∈ insertOrdered le a l ↔ x = a ∨ x ∈ l := by
  induction l with
  | nil => simp [insertOrdered]
  | cons b t ih =>
    unfold insertOrdered
    by_cases h : le b a = true
    · simp only [if_pos h, List.mem_cons, ih]
      try tauto
    · simp only [if_neg h, List.mem_cons]
      try tauto

/-- Length of an ordered insertion. -/
theorem length_insertOrdered {α : Type} (le : α → α → Bool) (a : α)
    (l : List α) : (insertOrdered le a l).length = l.length + 1 := by
  induction l with
  | nil => rfl
  | cons b t ih =>
    unfold insertOrdered
    by_cases h : le b a = true
    · simp [if_pos h, ih]
    · simp [if_neg h]

/-- Membership survives the stable sort. -/
theorem mem_pyStableSort {α : Type} (le : α → α → Bool) (l : List α)
    (x : α) : x ∈ pyStableSort le l ↔ x ∈ l := by
  unfold pyStableSort
  suffices h : ∀ acc : List α,
      x ∈ l.foldl (fun acc a => insertOrdered le a acc) acc ↔
        x ∈ acc ∨ x ∈ l by
    simpa using h []
  induction l with
  | nil => intro acc; simp
  | cons a t ih =>
    intro acc
    simp only [List.foldl_cons, ih, mem_insertOrdered, List.mem_cons]
    tauto

/-- Length survives the stable sort. -/
theorem length_pyStableSort {α : Type} (le : α → α → Bool) (l : List α) :
    (pyStableSort le l).length = l.length := by
  unfold pyStableSort
  suffices h : ∀ acc : List α,
      (l.foldl (fun acc a => insertOrdered le a acc) acc).length =
        acc.length + l.length by
    simpa using h []
  induction l with
  | nil => intro acc; simp
  | cons a t ih =>
    intro acc
    simp only [List.foldl_cons, ih, length_insertOrdered, List.length_cons]
    omega

/-- Membership in `sortedUnique`. -/
theorem mem_sortedUnique {l : List ℤ} {x : ℤ} :
    x ∈ sortedUnique l ↔ x ∈ l := by
  unfold sortedUnique
  rw [mem_pyStableSort, mem_uniqueFirst]

/-- An `Except`-valued `mapM` succeeds when every element does. -/
theorem exceptMapM_ok_of_forall {α β : Type} (f : α → Except String β)
    (l : List α) (h : ∀ a ∈ l, ∃ b, f a = .ok b) :
    ∃ r, l.mapM f = .ok r := by
  induction l with
  | nil => exact ⟨[], rfl⟩
  | cons a t ih =>
    obtain ⟨b, hb⟩ := h a (List.mem_cons_self a t)
    obtain ⟨r, hr⟩ := ih (fun x hx => h x (List.mem_cons_of_mem a hx))
    refine ⟨b :: r, ?_⟩
    rw [List.mapM_cons, hb, hr]
    rfl

/-- A successful `Except`-valued `mapM` relates inputs and outputs
pointwise. -/
theorem exceptMapM_forall₂ {α β : Type} (f : α → Except String β)
    (l : List α) (r : List β) (h : l.mapM f = .ok r) :
    List.Forall₂ (fun a b => f a = .ok b) l r := by
  induction l generalizing r with
  | nil =>
    rw [List.mapM_nil] at h
    cases h
    exact .nil
  | cons a t ih =>
    rw [List.mapM_cons] at h
    cases hfa : f a with
    | error e => rw [hfa] at h; exact absurd h (by simp [bind, Except.bind])
    | ok b =>
      rw [hfa] at h
      cases hft : t.mapM f with
      | error e =>
        rw [hft] at h
        exact absurd h (by simp [bind, Except.bind])
      | ok bs =>
        rw [hft] at h
        simp only [bind, Except.bind, pure, Except.pure, Except.ok.injEq] at h
        cases h
        exact List.Forall₂.cons hfa (ih bs hft)

/-- An `Except`-valued `foldlM` succeeds and maintains an invariant when each
step does. -/
theorem exceptFoldlM_ok {α β : Type} (f : β → α → Except String β)
    (P : β → Prop) (l : List α) (init : β) (hinit : P init)
    (hstep : ∀ s a, a ∈ l → P s → ∃ s', f s a = .ok s' ∧ P s') :
    ∃ s', l.foldlM f init = .ok s' ∧ P s' := by
  induction l generalizing init with
  | nil => exact ⟨init, rfl, hinit⟩
  | cons a t ih =>
    obtain ⟨s1, hs1, hP1⟩ := hstep init a (List.mem_cons_self a t) hinit
    obtain ⟨s', hs', hP'⟩ := ih s1 hP1
      (fun s x hx hP => hstep s x (List.mem_cons_of_mem a hx) hP)
    refine ⟨s', ?_, hP'⟩
    rw [List.foldlM_cons, hs1]
    exact hs'

/-! ## C5: direction filter correctness -/

/-- C5: for every graph and selected node S, every edge returned by the
directional-edge computation with directions consisting of "upstream" alone
has target S, and with "downstream" alone has source S. -/
theorem c5_direction_filter (G : Graph) (S : String) :
    (∀ e ∈ getDirectionalEdges G S ["upstream"], e.1.2 = S) ∧
    (∀ e ∈ getDirectionalEdges G S ["downstream"], e.1.1 = S) := by
  constructor
  · intro e he
    simp only [getDirectionalEdges] at he
    rw [if_pos (by decide), if_neg (by decide)] at he
    rw [List.append_nil] at he
    have h2 := (List.mem_filter.mp he).2
    simpa using h2
  · intro e he
    simp only [getDirectionalEdges] at he
    rw [if_neg (by decide), if_pos (by decide)] at he
    rw [List.nil_append] at he
    have h2 := (List.mem_filter.mp he).2
    simpa using h2

/-- Witness for C5 at the fixture graph: the edge a → b is returned upstream
of b and indeed targets b. -/
theorem c5_direction_filter_witness :
    ((("a", "b"), (⟨1, 1, "dep"⟩ : EdgeData)) ∈
      getDirectionalEdges wGraph "b" ["upstream"]) ∧
    ((("a", "b"), (⟨1, 1, "dep"⟩ : EdgeData)).1.2 = "b") :=
  ⟨by with_unfolding_all decide,
   (c5_direction_filter wGraph "b").1 _ (by with_unfolding_all decide)⟩

/-! ## C7: edge colour table and brightness shift -/

/-- C7: the edge colour is the brightness-shifted base colour, with the base
colour determined from the unordered pair of endpoint X-groups by the fixed
table of the claim and the shift determined by the tier map 2 ↦ +0.3,
3 ↦ 0.0, 4 ↦ −0.3; a tier-1 edge between groups 1 and 2 keeps the unshifted
blue #4A90E2 = rgb(74,144,226). -/
theorem c7_edge_color (xu xv tier : ℤ) :
    getEdgeColor xu xv tier =
      adjustBrightness (claimEdgeBaseColor xu xv) (claimBrightnessShift tier) ∧
    getEdgeColor 1 2 1 = "rgb(74,144,226)" := by
  constructor
  · simp only [getEdgeColor, claimEdgeBaseColor]
    congr 1
    · split_ifs with h1 h2 h3 h4 <;> first | rfl | tauto
    · by_cases h2 : tier = 2
      · subst h2; with_unfolding_all decide
      · by_cases h3 : tier = 3
        · subst h3; with_unfolding_all decide
        · by_cases h4 : tier = 4
          · subst h4; with_unfolding_all decide
          · simp only [brightnessMap, alookup, claimBrightnessShift,
              if_neg (fun h => h2 (Eq.symm h)),
              if_neg (fun h => h3 (Eq.symm h)),
              if_neg (fun h => h4 (Eq.symm h)),
              if_neg h2, if_neg h3, if_neg h4]
            rfl
  · with_unfolding_all decide

/-! ## C8: label wrapper on short text -/

/-- A string of positive length is not empty. -/
theorem string_ne_empty_of_length_pos (s : String) (h : 0 < s.length) :
    s ≠ "" := by
  intro he
  subst he
  simp at h

/-- A non-empty string has positive length. -/
theorem string_length_pos_of_ne_empty (s : String) (h : s ≠ "") :
    0 < s.length := by
  cases s with
  | mk data =>
    cases data with
    | nil => exact absurd rfl h
    | cons c cs => simp [String.length]

/-- Unfolding `joinSp` on a two-or-more element list. -/
theorem joinSp_cons_cons (a b : String) (l : List String) :
    joinSp (a :: b :: l) = a ++ " " ++ joinSp (b :: l) := rfl

/-- The single-space join is at least as long as its head. -/
theorem head_length_le_joinSp (a : String) (l : List String) :
    a.length ≤ (joinSp (a :: l)).length := by
  cases l with
  | nil => exact le_refl _
  | cons b t =>
    rw [joinSp_cons_cons, String.length_append, String.length_append]
    omega

/-- Gluing the first two words keeps the single-space join unchanged. -/
theorem joinSp_glue (a b : String) (l : List String) :
    joinSp ((a ++ " " ++ b) :: l) = joinSp (a :: b :: l) := by
  cases l with
  | nil => rfl
  | cons c t =>
    rw [joinSp_cons_cons, joinSp_cons_cons, joinSp_cons_cons]
    simp [String.append_assoc]

/-- Every word produced by the whitespace-split scanner is non-empty. -/
theorem pySplitAux_mem_ne_nil (cs : List Char) :
    ∀ cur w, w ∈ pySplitAux cs cur → w ≠ [] := by
  induction cs with
  | nil =>
    intro cur w hw
    unfold pySplitAux at hw
    by_cases hc : cur = []
    · rw [if_pos hc] at hw
      exact absurd hw (List.not_mem_nil w)
    · rw [if_neg hc] at hw
      rw [List.mem_singleton] at hw
      subst hw
      simpa using hc
  | cons c cs ih =>
    intro cur w hw
    unfold pySplitAux at hw
    by_cases hws : c.isWhitespace = true
    · rw [if_pos hws] at hw
      by_cases hc : cur = []
      · rw [if_pos hc] at hw
        exact ih [] w hw
      · rw [if_neg hc] at hw
        rcases List.mem_cons.mp hw with h | h
        · subst h
          simpa using hc
        · exact ih [] w h
    · rw [if_neg hws] at hw
      exact ih (c :: cur) w hw

/-- Every word of a Python whitespace split is non-empty. -/
theorem pySplit_mem_ne_empty (s : String) :
    ∀ w ∈ pySplit s, w ≠ "" := by
  intro w hw
  unfold pySplit at hw
  rcases List.mem_map.mp hw with ⟨cs, hcs, hmk⟩
  have hne := pySplitAux_mem_ne_nil s.data [] cs hcs
  subst hmk
  apply string_ne_empty_of_length_pos
  have : (String.mk cs).length = cs.length := rfl
  rw [this]
  cases cs with
  | nil => exact absurd rfl hne
  | cons c t => simp

/-- The greedy accumulation loop of the wrapper never flushes a line while
the whole single-space join fits in the target width. -/
theorem wrap_fold_single_line (target : ℕ) (ws : List String) :
    ∀ cur : String, cur ≠ "" → (joinSp (cur :: ws)).length ≤ target →
      ws.foldl (wrapStep target) ([], cur) = ([], joinSp (cur :: ws)) := by
  induction ws with
  | nil => intro cur _ _; rfl
  | cons w t ih =>
    intro cur hcur hfit
    rw [List.foldl_cons]
    have hb : (cur ++ " " ++ w).length ≤ target := by
      calc (cur ++ " " ++ w).length
          = cur.length + 1 + w.length := by
            rw [String.length_append, String.length_append]; rfl
        _ ≤ cur.length + 1 + (joinSp (w :: t)).length := by
            have := head_length_le_joinSp w t
            omega
        _ = (joinSp (cur :: w :: t)).length := by
            rw [joinSp_cons_cons, String.length_append,
              String.length_append]; rfl
        _ ≤ target := hfit
    have hstep : wrapStep target ([], cur) w = ([], cur ++ " " ++ w) := by
      unfold wrapStep
      simp only [if_pos hcur]
      rw [if_pos hb]
    rw [hstep]
    have hne : (cur ++ " " ++ w) ≠ "" := by
      apply string_ne_empty_of_length_pos
      rw [String.length_append, String.length_append]
      have := string_length_pos_of_ne_empty cur hcur
      omega
    have hfit' : (joinSp ((cur ++ " " ++ w) :: t)).length ≤ target := by
      rw [joinSp_glue]
      exact hfit
    rw [ih (cur ++ " " ++ w) hne hfit', joinSp_glue]

/-- C8 counterexample: the 4-character input with a double space comes back
with its whitespace collapsed, so the wrapper does not return every short
text unchanged. -/
theorem c8_counterexample :
    ("a  b" : String).length ≤ 15 ∧
      wrapLabelIntelligently "a  b" ≠ ("a  b", 1) := by
  with_unfolding_all decide

/-- C8 (amended): for every input text of length at most 15 whose whitespace
is already normalised (the text equals the single-space join of its
whitespace-split words), the label wrapper returns the text unchanged with
line count 1. -/
theorem c8_short_text_unchanged (text : String) (hlen : text.length ≤ 15)
    (hnorm : text = joinSp (pySplit text)) :
    wrapLabelIntelligently text = (text, 1) := by
  by_cases h0 : text = ""
  · subst h0; rfl
  · unfold wrapLabelIntelligently
    rw [if_neg h0]
    by_cases hw : pySplit text = []
    · exact absurd (by rw [hnorm, hw]; rfl) h0
    · rw [if_neg hw]
      obtain ⟨w0, ws, hws⟩ := List.exists_cons_of_ne_nil hw
      have htarget : targetChars text.length = text.length := by
        unfold targetChars
        rw [if_pos hlen]
      have hjoin : joinSp (w0 :: ws) = text := by rw [← hws, ← hnorm]
      have hw0 : w0 ≠ "" := by
        apply pySplit_mem_ne_empty text
        rw [hws]
        exact List.mem_cons_self w0 ws
      have hfit : (joinSp (w0 :: ws)).length ≤ text.length := by
        rw [hjoin]
      have hb0 : w0.length ≤ text.length := by
        have h1 : w0.length ≤ (joinSp (w0 :: ws)).length :=
          head_length_le_joinSp w0 ws
        omega
      have hstep0 : wrapStep text.length ([], "") w0 = ([], w0) := by
        unfold wrapStep
        have hc : ¬(("" : String) ≠ "") := fun h => h rfl
        simp only [if_neg hc, String.empty_append]
        rw [if_pos hb0]
      have hfold : List.foldl (wrapStep text.length) ([], "") (w0 :: ws) =
          ([], text) := by
        rw [List.foldl_cons, hstep0,
          wrap_fold_single_line text.length ws w0 hw0 hfit, hjoin]
      simp only [htarget, hws, hfold, ne_eq, h0, not_false_iff, if_true,
        List.nil_append]
      constructor

/-- Witness for C8 (amended) at a concrete 13-character label. -/
theorem c8_short_text_unchanged_witness :
    ("Data Platform" : String).length ≤ 15 ∧
      "Data Platform" = joinSp (pySplit "Data Platform") ∧
      wrapLabelIntelligently "Data Platform" = ("Data Platform", 1) :=
  ⟨by decide, by decide,
   c8_short_text_unchanged "Data Platform" (by decide) (by decide)⟩

/-! ## C9: collision predicate and bounded retry loop -/

/-- Spec of the bounded retry loop: the committed grid is the one at the
first collision-free spacing among `s·1.08^0 … s·1.08^fuel`, or at the last
attempted spacing when every attempt collides. -/
theorem findNonCollidingGrid_spec (count : ℕ) (tOff : ℚ) (hs : List ℚ)
    (used : List ((ℤ × ℚ) × ℚ)) (xg : ℤ) :
    ∀ (fuel : ℕ) (s : ℚ), ∃ k ≤ fuel,
      findNonCollidingGrid fuel count s tOff hs used xg =
        calculateYGrid count (s * (27/25) ^ k) ∧
      (hasIntelligentCollisions
          ((calculateYGrid count (s * (27/25) ^ k)).map (fun o => tOff + o))
          hs used xg = false ∨ k = fuel) ∧
      (∀ j < k, hasIntelligentCollisions
          ((calculateYGrid count (s * (27/25) ^ j)).map (fun o => tOff + o))
          hs used xg = true) := by
  intro fuel
  induction fuel with
  | zero =>
    intro s
    refine ⟨0, le_refl 0, ?_, Or.inr rfl, ?_⟩
    · rw [pow_zero, mul_one]
      unfold findNonCollidingGrid
      by_cases h : hasIntelligentCollisions
          ((calculateYGrid count s).map (fun o => tOff + o)) hs used xg = true
      · simp [h]
      · simp [h]
    · intro j hj
      omega
  | succ n ih =>
    intro s
    by_cases h : hasIntelligentCollisions
        ((calculateYGrid count s).map (fun o => tOff + o)) hs used xg = true
    · obtain ⟨k', hk'le, heq, hcond, hall⟩ := ih (s * (27/25))
      have hexp : ∀ k : ℕ, s * (27/25 : ℚ) ^ (k + 1) =
          s * (27/25) * (27/25 : ℚ) ^ k := by
        intro k
        rw [pow_succ]
        ring
      refine ⟨k' + 1, by omega, ?_, ?_, ?_⟩
      · have hunf : findNonCollidingGrid (n + 1) count s tOff hs used xg =
            findNonCollidingGrid n count (s * (27/25)) tOff hs used xg := by
          conv_lhs => unfold findNonCollidingGrid
          simp [h]
        rw [hunf, heq, hexp k']
      · rcases hcond with hfree | hlast
        · left
          rw [hexp k']
          exact hfree
        · right
          omega
      · intro j hj
        cases j with
        | zero =>
          rw [pow_zero, mul_one]
          exact h
        | succ j' =>
          rw [hexp j']
          exact hall j' (by omega)
    · refine ⟨0, by omega, ?_, Or.inl ?_, ?_⟩
      · rw [pow_zero, mul_one]
        unfold findNonCollidingGrid
        simp [h]
      · rw [pow_zero, mul_one]
        simpa using h
      · intro j hj
        omega

/-- C9 counterexample: two batch members with identical unit-height extents
overlap far inside the 0.15 gap, yet the collision predicate reports no
collision when no coordinates are committed — the predicate never compares
the new batch against itself, contradicting the claim's "and the other
members of the new batch". -/
theorem c9_counterexample :
    hasIntelligentCollisions [0, 0] [1, 1] [] 1 = false ∧
      ¬((0 : ℚ) - 1/2 > 0 + 1/2 + 3/20 ∨ (0 : ℚ) + 1/2 < 0 - 1/2 - 3/20) := by
  constructor
  · rfl
  · with_unfolding_all decide

/-- C9 (amended): the collision predicate reports a collision exactly when
some node of the new batch has a vertical extent (y ± height/2) overlapping,
within the 0.15 minimum gap, the extent of an already-committed node of the
same xGroup (batch members are not compared against each other); on
collision the local spacing is multiplied by 1.08 and retried, bounded to 15
attempts (the first collision-free spacing wins, after 15 colliding attempts
the last grid is committed anyway). -/
theorem c9_collision_loop :
    (∀ (ys hs : List ℚ) (used : List ((ℤ × ℚ) × ℚ)) (xg : ℤ),
      hasIntelligentCollisions ys hs used xg = true ↔
        ∃ p ∈ ys.zip hs, ∃ e ∈ used, e.1.1 = xg ∧
          ¬(p.1 - p.2/2 > e.1.2 + e.2/2 + 3/20 ∨
            p.1 + p.2/2 < e.1.2 - e.2/2 - 3/20)) ∧
    (∀ (count : ℕ) (s0 tOff : ℚ) (hs : List ℚ)
        (used : List ((ℤ × ℚ) × ℚ)) (xg : ℤ), ∃ k ≤ 14,
      findNonCollidingGrid 14 count s0 tOff hs used xg =
        calculateYGrid count (s0 * (27/25) ^ k) ∧
      (hasIntelligentCollisions
          ((calculateYGrid count (s0 * (27/25) ^ k)).map (fun o => tOff + o))
          hs used xg = false ∨ k = 14) ∧
      (∀ j < k, hasIntelligentCollisions
          ((calculateYGrid count (s0 * (27/25) ^ j)).map (fun o => tOff + o))
          hs used xg = true)) := by
  constructor
  · intro ys hs used xg
    unfold hasIntelligentCollisions
    simp only [List.any_eq_true, Bool.and_eq_true, decide_eq_true_eq,
      Bool.not_eq_true', Bool.or_eq_false_iff, decide_eq_false_iff_not,
      not_or]
  · intro count s0 tOff hs used xg
    exact findNonCollidingGrid_spec count tOff hs used xg 14 s0

/-! ## C2: the "All" sentinel versus no selection -/

/-- C2 counterexample: on the fixture graph in interactive mode, selection
"All" dims every node while a null selection dims none, so the two inputs do
not produce the same interaction state. -/
theorem c2_counterexample :
    determineInteractionState wGraph (some "All") none "interactive" ≠
      determineInteractionState wGraph none none "interactive" ∧
    (determineInteractionState wGraph (some "All") none "interactive").2.2 =
      ["a", "b", "c"] ∧
    (determineInteractionState wGraph none none "interactive").2.2 = [] := by
  refine ⟨?_, ?_, ?_⟩ <;> with_unfolding_all decide

/-- C2 (amended): when no domain id is the literal string "All", selection
"All" and null selection give identical visibility in both modes and an
identical interaction state in filter mode; in interactive mode they agree
on the highlighted and secondary sets, but "All" dims every node outside
those sets whereas null dims nothing. -/
theorem c2_all_sentinel (G : Graph) (hov : Option String)
    (hAll : "All" ∉ G.nodeIds) :
    (∀ dirs mode, determineVisibleElements G (some "All") hov dirs mode =
      determineVisibleElements G none hov dirs mode) ∧
    determineInteractionState G (some "All") hov "filter" =
      determineInteractionState G none hov "filter" ∧
    ((determineInteractionState G (some "All") hov "interactive").1 =
      (determineInteractionState G none hov "interactive").1 ∧
     (determineInteractionState G (some "All") hov "interactive").2.1 =
      (determineInteractionState G none hov "interactive").2.1 ∧
     (determineInteractionState G none hov "interactive").2.2 = [] ∧
     (determineInteractionState G (some "All") hov "interactive").2.2 =
       G.nodeIds.filter (fun n =>
         n ∉ (determineInteractionState G (some "All") hov "interactive").1 ∧
         n ∉ (determineInteractionState G (some "All") hov "interactive").2.1)) := by
  refine ⟨?_, ?_, ?_⟩
  · intro dirs mode
    simp [determineVisibleElements]
  · simp [determineInteractionState]
  · have hmode : ¬(("interactive" : String) = "filter" ∧
        ((some "All" : Option String) = none ∨
          (some "All" : Option String) = some "All")) :=
      fun h => absurd h.1 (by decide)
    have hmode' : ¬(("interactive" : String) = "filter" ∧
        ((none : Option String) = none ∨
          (none : Option String) = some "All")) :=
      fun h => absurd h.1 (by decide)
    have hsel : ¬(("All" : String) ≠ "" ∧ "All" ∈ G.nodeIds) :=
      fun h => hAll h.2
    cases hEq : (if hov = some "RESET" then none else hov) with
    | none =>
      simp only [determineInteractionState, hEq, if_neg hmode,
        if_neg hmode', if_neg hsel]
      refine ⟨rfl, rfl, ?_, ?_⟩
      · simp [pyTruthy]
      · simp [pyTruthy]
    | some h =>
      have hiff : (h ≠ "" ∧ (some h : Option String) ≠ some "All" ∧
          h ∈ G.nodeIds) ↔
          (h ≠ "" ∧ (some h : Option String) ≠ none ∧ h ∈ G.nodeIds) := by
        constructor
        · rintro ⟨h1, _, h3⟩
          exact ⟨h1, by simp, h3⟩
        · rintro ⟨h1, _, h3⟩
          refine ⟨h1, ?_, h3⟩
          intro hcontra
          rw [Option.some.injEq] at hcontra
          subst hcontra
          exact hAll h3
      simp only [determineInteractionState, hEq, if_neg hmode,
        if_neg hmode', if_neg hsel]
      by_cases hc : h ≠ "" ∧ (some h : Option String) ≠ none ∧ h ∈ G.nodeIds
      · simp only [if_pos (hiff.mpr hc), if_pos hc]
        refine ⟨rfl, rfl, ?_, ?_⟩
        · simp [pyTruthy]
        · simp [pyTruthy]
      · simp only [if_neg (fun hx => hc (hiff.mp hx)), if_neg hc]
        refine ⟨rfl, rfl, ?_, ?_⟩
        · simp [pyTruthy]
        · simp [pyTruthy]

/-- Witness for C2 (amended) at the fixture graph. -/
theorem c2_all_sentinel_witness :
    ("All" ∉ wGraph.nodeIds) ∧
    determineVisibleElements wGraph (some "All") none
        ["upstream", "downstream"] "filter" =
      determineVisibleElements wGraph none none
        ["upstream", "downstream"] "filter" :=
  ⟨by with_unfolding_all decide,
   (c2_all_sentinel wGraph none (by with_unfolding_all decide)).1
     ["upstream", "downstream"] "filter"⟩

/-! ## C3: filter-mode visibility versus rendered shapes -/

/-- Membership in the visible-node accumulation loop of
`_determine_visible_elements`. -/
theorem mem_visible_fold (edges : List ((String × String) × EdgeData))
    (base : List String) (x : String) :
    x ∈ edges.foldl (fun acc e => setAdd (setAdd acc e.1.1) e.1.2) base ↔
      x ∈ base ∨ ∃ e ∈ edges, x = e.1.1 ∨ x = e.1.2 := by
  induction edges generalizing base with
  | nil => simp
  | cons e t ih =>
    rw [List.foldl_cons, ih]
    simp only [mem_setAdd, List.mem_cons]
    constructor
    · rintro (((h | h) | h) | ⟨e', he', hx⟩)
      · exact Or.inl h
      · exact Or.inr ⟨e, Or.inl rfl, Or.inl h⟩
      · exact Or.inr ⟨e, Or.inl rfl, Or.inr h⟩
      · exact Or.inr ⟨e', Or.inr he', hx⟩
    · rintro (h | ⟨e', he'' | he'', hx⟩)
      · exact Or.inl (Or.inl (Or.inl h))
      · subst he''
        rcases hx with hx | hx
        · exact Or.inl (Or.inl (Or.inr hx))
        · exact Or.inl (Or.inr hx)
      · exact Or.inr ⟨e', he'', hx⟩

/-- C3 counterexample: on the fixture graph in filter mode with selection
"a" the visible set is exactly a and b, yet the shape pass still emits three
node shapes and an annotation carrying the label of the hidden node c. -/
theorem c3_counterexample :
    (determineVisibleElements wGraph (some "a") none
        ["upstream", "downstream"] "filter").1 = ["a", "b"] ∧
    "c" ∉ (determineVisibleElements wGraph (some "a") none
        ["upstream", "downstream"] "filter").1 ∧
    (∃ sa, createNodeShapesAndAnnots wGraph wPos
        (determineVisibleElements wGraph (some "a") none
          ["upstream", "downstream"] "filter").1 = .ok sa ∧
      sa.1.length = 3 ∧ ∃ an ∈ sa.2, an.text = "Gamma") := by
  refine ⟨?_, ?_, ?_⟩
  · with_unfolding_all decide
  · with_unfolding_all decide
  · refine ⟨((createNodeShapesAndAnnots wGraph wPos
        (determineVisibleElements wGraph (some "a") none
          ["upstream", "downstream"] "filter").1).toOption.getD ([], [])),
      ?_, ?_, ?_⟩
    · with_unfolding_all rfl
    · with_unfolding_all decide
    · with_unfolding_all decide

/-- C3 (amended): in filter mode with a valid selection the visible nodes
are exactly the selection plus the endpoints of its directional edges and
the visible edges are exactly those directional edges; however the node
shape/annotation pass ignores the visible set entirely and emits one shape
and one annotation for every graph node (hidden nodes are rendered dimmed,
not omitted). -/
theorem c3_filter_visibility (G : Graph) (sel : String) (hov : Option String)
    (dirs : List String) (hne : sel ≠ "") (hsel : sel ∈ G.nodeIds)
    (hnotall : sel ≠ "All") :
    (determineVisibleElements G (some sel) hov dirs "filter").2 =
      getDirectionalEdges G sel dirs ∧
    (∀ x, x ∈ (determineVisibleElements G (some sel) hov dirs "filter").1 ↔
      x = sel ∨ ∃ e ∈ getDirectionalEdges G sel dirs,
        x = e.1.1 ∨ x = e.1.2) ∧
    (∀ pos vis vis', createNodeShapesAndAnnots G pos vis =
      createNodeShapesAndAnnots G pos vis') ∧
    (∀ pos vis shapes annots,
      createNodeShapesAndAnnots G pos vis = .ok (shapes, annots) →
        shapes.length = G.nodes.length ∧
        annots.length = G.nodes.length) := by
  have hvis : determineVisibleElements G (some sel) hov dirs "filter" =
      (((getDirectionalEdges G sel dirs).foldl
          (fun acc e => setAdd (setAdd acc e.1.1) e.1.2) (setAdd [] sel)),
        getDirectionalEdges G sel dirs) := by
    simp [determineVisibleElements, hnotall, hne, hsel]
  refine ⟨?_, ?_, ?_, ?_⟩
  · rw [hvis]
  · intro x
    rw [hvis]
    simp only [mem_visible_fold, mem_setAdd, List.not_mem_nil, false_or]
  · intro pos vis vis'
    rfl
  · intro pos vis shapes annots h
    unfold createNodeShapesAndAnnots at h
    cases hm : G.nodes.mapM (nodeShapeOne G pos) with
    | error e =>
      rw [hm] at h
      exact absurd h (by simp [bind, Except.bind])
    | ok pairs =>
      rw [hm] at h
      simp only [bind, Except.bind, pure, Except.pure, Except.ok.injEq] at h
      have hlen := (exceptMapM_forall₂ _ _ _ hm).length_eq
      cases h
      constructor
      · simp [← hlen]
      · simp [← hlen]

/-- Witness for C3 (amended) at the fixture graph with selection "a". -/
theorem c3_filter_visibility_witness :
    (("a" : String) ≠ "" ∧ "a" ∈ wGraph.nodeIds ∧ ("a" : String) ≠ "All") ∧
    (determineVisibleElements wGraph (some "a") none
        ["upstream", "downstream"] "filter").2 =
      getDirectionalEdges wGraph "a" ["upstream", "downstream"] :=
  ⟨⟨by decide, by with_unfolding_all decide, by decide⟩,
   (c3_filter_visibility wGraph "a" none ["upstream", "downstream"]
     (by decide) (by with_unfolding_all decide) (by decide)).1⟩

/-! ## C4: dimming versus visibility -/

/-- Right-membership destructor for `Forall₂`. -/
theorem forall₂_mem_right {α β : Type} {R : α → β → Prop} {l : List α}
    {r : List β} (h : List.Forall₂ R l r) :
    ∀ b ∈ r, ∃ a ∈ l, R a b := by
  induction h with
  | nil => intro b hb; exact absurd hb (List.not_mem_nil b)
  | cons hR _ ih =>
    intro b hb
    rcases List.mem_cons.mp hb with hb | hb
    · subst hb
      exact ⟨_, List.mem_cons_self _ _, hR⟩
    · obtain ⟨a, ha, hab⟩ := ih b hb
      exact ⟨a, List.mem_cons_of_mem _ ha, hab⟩

/-- The style pass writes opacity 0.2 into every node listed in `dimNodes`
(the dim write happens last, so it is unconditional for dim members). -/
theorem styleOne_dim_opacity (G : Graph) (sel hov : Option String)
    (dim : List String) (gn gn' : GNode)
    (h : styleOne G sel hov dim gn = .ok gn') :
    gn'.id = gn.id ∧
      (gn.id ∈ dim → ∀ a', gn'.attrs = some a' → a'.opacity = some (1/5)) := by
  unfold styleOne at h
  cases hga : G.getAttr gn.id with
  | error e =>
    rw [hga] at h
    exact absurd h (by simp [bind, Except.bind])
  | ok a =>
    rw [hga] at h
    simp only [bind, Except.bind, pure, Except.pure, Except.ok.injEq] at h
    subst h
    refine ⟨rfl, ?_⟩
    intro hmem a' ha'
    simp only [Option.some.injEq] at ha'
    subst ha'
    simp only [if_pos (And.intro (List.ne_nil_of_mem hmem) hmem)]

/-- C4 counterexample: on the fixture graph in filter mode with selection
"a", the dim set is the non-empty set containing c, c is absent from the
visible set, and the style pass gives c opacity 0.2 — a node simultaneously
dimmed and invisible, in filter mode. -/
theorem c4_counterexample :
    (determineInteractionState wGraph (some "a") none "filter").2.2 =
      ["c"] ∧
    "c" ∉ (determineVisibleElements wGraph (some "a") none
        ["upstream", "downstream"] "filter").1 ∧
    ((applyNodeStyles wGraph (some "a") none
        (determineInteractionState wGraph (some "a") none "filter").2.2).toOption.map
      (fun G' => (G'.getAttr "c").toOption.map (fun a => a.opacity))) =
      some (some (some (1/5))) := by
  refine ⟨?_, ?_, ?_⟩ <;> with_unfolding_all decide

/-- C4 (amended): the dim set is empty in interactive mode without a truthy
selection and in filter mode with a null/"All" selection; in filter mode
with any other selection it equals all nodes minus the highlighted and
secondary sets (so dimming does occur in filter mode, where those nodes are
also hidden); and every node of the dim list handed to the style pass ends
up with opacity 0.2. -/
theorem c4_dim_characterization (G : Graph) (sel hov : Option String) :
    (pyTruthy sel = false →
      (determineInteractionState G sel hov "interactive").2.2 = []) ∧
    ((sel = none ∨ sel = some "All") →
      (determineInteractionState G sel hov "filter").2.2 = []) ∧
    (sel ≠ none → sel ≠ some "All" →
      (determineInteractionState G sel hov "filter").2.2 =
        G.nodeIds.filter (fun n =>
          n ∉ (determineInteractionState G sel hov "filter").1 ∧
          n ∉ (determineInteractionState G sel hov "filter").2.1)) ∧
    (∀ (dim : List String) (G' : Graph) (n : String) (a : NodeAttrs),
      applyNodeStyles G sel hov dim = .ok G' → n ∈ dim →
        G'.getAttr n = .ok a → a.opacity = some (1/5)) := by
  refine ⟨?_, ?_, ?_, ?_⟩
  · intro hfalse
    simp [determineInteractionState, hfalse]
  · rintro (hsel | hsel) <;> subst hsel <;> simp [determineInteractionState]
  · intro hn hall
    simp [determineInteractionState, hn, hall]
  · intro dim G' n a hstyles hmem hattr
    unfold applyNodeStyles at hstyles
    dsimp only at hstyles
    cases hm : G.nodes.mapM
        (styleOne G sel (if hov = some "RESET" then none else hov) dim) with
    | error e =>
      rw [hm] at hstyles
      exact absurd hstyles (by simp [bind, Except.bind])
    | ok newNodes =>
      rw [hm] at hstyles
      simp only [bind, Except.bind, pure, Except.pure, Except.ok.injEq]
        at hstyles
      subst hstyles
      unfold Graph.getAttr at hattr
      cases hf : List.find? (fun gn => decide (gn.id = n)) newNodes with
      | none =>
        rw [hf] at hattr
        exact absurd hattr (by simp)
      | some gn' =>
        rw [hf] at hattr
        dsimp only at hattr
        have hmemr := List.mem_of_find?_eq_some hf
        have hpred := List.find?_some hf
        simp only [decide_eq_true_eq] at hpred
        obtain ⟨gn, _, hrel⟩ :=
          forall₂_mem_right (exceptMapM_forall₂ _ _ _ hm) gn' hmemr
        obtain ⟨hid, hop⟩ := styleOne_dim_opacity _ _ _ _ _ _ hrel
        cases hga' : gn'.attrs with
        | none =>
          rw [hga'] at hattr
          exact absurd hattr (by simp)
        | some a' =>
          rw [hga'] at hattr
          simp only [Except.ok.injEq] at hattr
          subst hattr
          exact hop (by rw [← hid, hpred]; exact hmem) a' hga'

/-- Witness for C4 (amended): with no selection in interactive mode the dim
set of the fixture graph is empty. -/
theorem c4_dim_characterization_witness :
    pyTruthy (none : Option String) = false ∧
    (determineInteractionState wGraph none none "interactive").2.2 = [] :=
  ⟨rfl, (c4_dim_characterization wGraph none none).1 rfl⟩

/-! ## Inversion machinery for the figure pipeline -/

/-- Inversion of a successful `Except` bind. -/
theorem except_bind_ok {α β : Type} (x : Except String α)
    (f : α → Except String β) (b : β) (h : x >>= f = .ok b) :
    ∃ a, x = .ok a ∧ f a = .ok b := by
  cases x with
  | error e => exact absurd h (by simp [bind, Except.bind])
  | ok a => exact ⟨a, rfl, by simpa [bind, Except.bind] using h⟩

/-- Two `mapM`s agree when their element computations agree pointwise. -/
theorem exceptMapM_congr {α β γ : Type} {f : α → Except String γ}
    {g : β → Except String γ} {l : List α} {r : List β}
    (h : List.Forall₂ (fun a b => f a = g b) l r) :
    l.mapM f = r.mapM g := by
  induction h with
  | nil => rfl
  | cons hfg _ ih =>
    rw [List.mapM_cons, List.mapM_cons, hfg, ih]

/-- Mapping related lists through functions that agree on related pairs. -/
theorem forall₂_map_eq {α β γ : Type} {R : α → β → Prop} {l : List α}
    {r : List β} {f : α → γ} {g : β → γ} (h : List.Forall₂ R l r)
    (hfg : ∀ a b, R a b → f a = g b) : l.map f = r.map g := by
  induction h with
  | nil => rfl
  | cons hR _ ih =>
    rw [List.map_cons, List.map_cons, ih, hfg _ _ hR]

/-- `find?` correspondence along a `Forall₂` whose relation preserves the
predicates. -/
theorem forall₂_find?_some {α β : Type} {R : α → β → Prop} {l : List α}
    {r : List β} {p : α → Bool} {q : β → Bool} (h : List.Forall₂ R l r)
    (hpq : ∀ a b, R a b → p a = q b) :
    ∀ a, l.find? p = some a → ∃ b, r.find? q = some b ∧ R a b := by
  induction h with
  | nil => intro a ha; exact absurd ha (by simp)
  | cons hR hrest ih =>
    intro a ha
    rename_i x y l' r'
    by_cases hx : p x = true
    · rw [List.find?_cons_of_pos _ hx] at ha
      cases ha
      refine ⟨y, ?_, hR⟩
      rw [List.find?_cons_of_pos _ (by rw [← hpq _ _ hR]; exact hx)]
    · rw [List.find?_cons_of_neg _ hx] at ha
      obtain ⟨b, hb, hab⟩ := ih a ha
      refine ⟨b, ?_, hab⟩
      rw [List.find?_cons_of_neg _ (by rw [← hpq _ _ hR]; exact hx), hb]

/-- What the per-node style pass preserves: the id, and every attribute
field other than glow, opacity and border. -/
theorem styleOne_preserves (G : Graph) (sel hov : Option String)
    (dim : List String) (gn gn' : GNode)
    (h : styleOne G sel hov dim gn = .ok gn') :
    gn'.id = gn.id ∧ ∃ a, G.getAttr gn.id = .ok a ∧ ∃ a',
      gn'.attrs = some a' ∧ a'.label = a.label ∧
      a'.wrappedLabel = a.wrappedLabel ∧ a'.pos = a.pos ∧
      a'.width = a.width ∧ a'.height = a.height ∧ a'.color = a.color := by
  unfold styleOne at h
  cases hga : G.getAttr gn.id with
  | error e =>
    rw [hga] at h
    exact absurd h (by simp [bind, Except.bind])
  | ok a =>
    rw [hga] at h
    simp only [bind, Except.bind, pure, Except.pure, Except.ok.injEq] at h
    subst h
    exact ⟨rfl, a, rfl, _, rfl, rfl, rfl, rfl, rfl, rfl, rfl⟩

/-- The style pass succeeds exactly when every node's attribute dict is
readable, and then it only rewrites glow/opacity/border. -/
theorem applyNodeStyles_ok (G : Graph) (sel hov : Option String)
    (dim : List String)
    (hattrs : ∀ gn ∈ G.nodes, ∃ a, G.getAttr gn.id = .ok a) :
    ∃ G', applyNodeStyles G sel hov dim = .ok G' := by
  unfold applyNodeStyles
  dsimp only
  have hall : ∀ gn ∈ G.nodes, ∃ b,
      styleOne G sel (if hov = some "RESET" then none else hov) dim gn =
        .ok b := by
    intro gn hgn
    obtain ⟨a, ha⟩ := hattrs gn hgn
    unfold styleOne
    rw [ha]
    exact ⟨_, rfl⟩
  obtain ⟨r, hr⟩ := exceptMapM_ok_of_forall
    (styleOne G sel (if hov = some "RESET" then none else hov) dim)
    G.nodes hall
  refine ⟨{ G with nodes := r }, ?_⟩
  rw [hr]
  rfl

/-- Structure of a successful style pass: edges unchanged, nodes pointwise
related by `styleOne`. -/
theorem applyNodeStyles_inversion (G G' : Graph) (sel hov : Option String)
    (dim : List String) (h : applyNodeStyles G sel hov dim = .ok G') :
    G'.edges = G.edges ∧
    List.Forall₂
      (fun gn gn' => styleOne G sel
        (if hov = some "RESET" then none else hov) dim gn = .ok gn')
      G.nodes G'.nodes := by
  unfold applyNodeStyles at h
  dsimp only at h
  cases hm : G.nodes.mapM
      (styleOne G sel (if hov = some "RESET" then none else hov) dim) with
  | error e =>
    rw [hm] at h
    exact absurd h (by simp [bind, Except.bind])
  | ok newNodes =>
    rw [hm] at h
    simp only [bind, Except.bind, pure, Except.pure, Except.ok.injEq] at h
    subst h
    exact ⟨rfl, exceptMapM_forall₂ _ _ _ hm⟩

/-- Attribute lookups after the style pass: same nodes found, with label,
wrapped label, position and dimensions intact. -/
theorem applyNodeStyles_getAttr (G G' : Graph) (sel hov : Option String)
    (dim : List String) (h : applyNodeStyles G sel hov dim = .ok G') :
    ∀ x a, G.getAttr x = .ok a →
      ∃ a', G'.getAttr x = .ok a' ∧ a'.label = a.label ∧
        a'.wrappedLabel = a.wrappedLabel ∧ a'.pos = a.pos ∧
        a'.width = a.width ∧ a'.height = a.height ∧ a'.color = a.color := by
  intro x a ha
  obtain ⟨-, hf2⟩ := applyNodeStyles_inversion G G' sel hov dim h
  have ha2 := ha
  unfold Graph.getAttr at ha2
  cases hf : List.find? (fun gn => decide (gn.id = x)) G.nodes with
  | none =>
    rw [hf] at ha2
    exact absurd ha2 (by simp)
  | some gn =>
    have hid : ∀ (a : GNode) (b : GNode),
        (styleOne G sel (if hov = some "RESET" then none else hov) dim a =
          .ok b) →
        (decide (a.id = x)) = (decide (b.id = x)) := by
      intro gna gnb hrel
      obtain ⟨hids, -⟩ := styleOne_preserves _ _ _ _ _ _ hrel
      rw [hids]
    obtain ⟨gn', hgn', hrel⟩ := forall₂_find?_some hf2
      (fun a b hr => hid a b hr) gn hf
    obtain ⟨hids, a0, ha0, a', hattrs', hl, hwl, hp, hw, hh, hc⟩ :=
      styleOne_preserves _ _ _ _ _ _ hrel
    have hfound : gn.id = x := by
      have := List.find?_some hf
      simpa using this
    rw [hfound] at ha0
    rw [ha] at ha0
    have ha0a : a0 = a := (Except.ok.inj ha0).symm
    subst ha0a
    refine ⟨a', ?_, hl, hwl, hp, hw, hh, hc⟩
    unfold Graph.getAttr
    rw [hgn']
    dsimp only
    rw [hattrs']

/-- Inversion of a successful figure build: names the underlying graph, the
styled graph and the edge-trace pair, and ties the scene fields to them. -/
theorem buildFigure_inversion (rf : RealFuns) (m : Model)
    (sel : Option String) (dirs : List String) (mode : String)
    (hov : Option String) (ts : ℕ) (s : Scene)
    (h : buildFigure rf m sel dirs mode hov ts = .ok s) :
    ∃ G₁ G₂ ta,
      buildNetworkxGraph m (assignStackedPositions m.nodes) = .ok G₁ ∧
      applyNodeStyles G₁ sel hov
        (determineInteractionState G₁ sel hov mode).2.2 = .ok G₂ ∧
      ((if (determineVisibleElements G₂ sel hov dirs mode).2 ≠ [] then
          createEdgeTraces rf m G₂ G₁.posMap
            (determineVisibleElements G₂ sel hov dirs mode).2
            (determineVisibleElements G₂ sel hov dirs mode).1 mode
        else pure ([], [])) = .ok ta) ∧
      s.edgeTraces = ta.1 ∧ s.arrowShapes = ta.2 ∧
      createInteractiveNodeTrace m G₂ G₁.posMap = .ok s.interactiveTrace ∧
      s.datarevision = ts := by
  unfold buildFigure at h
  dsimp only at h
  obtain ⟨G₁, hG₁, h⟩ := except_bind_ok _ _ _ h
  obtain ⟨G₂, hG₂, h⟩ := except_bind_ok _ _ _ h
  obtain ⟨ta, hta, h⟩ := except_bind_ok _ _ _ h
  obtain ⟨bg, hbg, h⟩ := except_bind_ok _ _ _ h
  obtain ⟨sa, hsa, h⟩ := except_bind_ok _ _ _ h
  obtain ⟨ext, hext, h⟩ := except_bind_ok _ _ _ h
  obtain ⟨xga, hxga, h⟩ := except_bind_ok _ _ _ h
  obtain ⟨it, hit, h⟩ := except_bind_ok _ _ _ h
  obtain ⟨hgt, hhgt, h⟩ := except_bind_ok _ _ _ h
  obtain ⟨bounds, hbounds, h⟩ := except_bind_ok _ _ _ h
  simp only [pure, Except.pure, Except.ok.injEq] at h
  subst h
  exact ⟨G₁, G₂, ta, hG₁, hG₂, hta, rfl, rfl, hit, rfl⟩

/-! ## C10: edge traces are independent of interaction state -/

/-- Each successful edge-trace computation yields opacity 0.6 and line width
3 × the edge's weight. -/
theorem edgeTraceOne_fields (rf : RealFuns) (m : Model) (G : Graph)
    (pos : List (String × (ℚ × ℚ))) (ed : (String × String) × EdgeData)
    (p : EdgeTrace × Option ArrowData) (h : edgeTraceOne rf m G pos ed = .ok p) :
    p.1.opacity = 3/5 ∧ p.1.lineWidth = 3 * ed.2.weight := by
  unfold edgeTraceOne at h
  obtain ⟨p0, hp0, h⟩ := except_bind_ok _ _ _ h
  obtain ⟨p1, hp1, h⟩ := except_bind_ok _ _ _ h
  obtain ⟨xu, hxu, h⟩ := except_bind_ok _ _ _ h
  obtain ⟨xv, hxv, h⟩ := except_bind_ok _ _ _ h
  obtain ⟨au, hau, h⟩ := except_bind_ok _ _ _ h
  obtain ⟨av, hav, h⟩ := except_bind_ok _ _ _ h
  simp only [pure, Except.pure, Except.ok.injEq] at h
  subst h
  exact ⟨rfl, rfl⟩

/-- C10: edge styling is independent of interaction state — the edge-trace
pass does not read the visible-node set or the mode, and every emitted edge
trace of a successful build has opacity exactly 0.6 and line width exactly
3 times its edge's weight, for every combination of selection, hover, mode
and directions. -/
theorem c10_edge_trace_styling :
    (∀ (rf : RealFuns) (m : Model) (G : Graph)
        (pos : List (String × (ℚ × ℚ)))
        (ves : List ((String × String) × EdgeData))
        (vns vns' : List String) (mode mode' : String),
      createEdgeTraces rf m G pos ves vns mode =
        createEdgeTraces rf m G pos ves vns' mode') ∧
    (∀ (rf : RealFuns) (m : Model) (sel : Option String)
        (dirs : List String) (mode : String) (hov : Option String)
        (ts : ℕ) (s : Scene),
      buildFigure rf m sel dirs mode hov ts = .ok s →
      ∃ G₁ G₂,
        buildNetworkxGraph m (assignStackedPositions m.nodes) = .ok G₁ ∧
        applyNodeStyles G₁ sel hov
          (determineInteractionState G₁ sel hov mode).2.2 = .ok G₂ ∧
        List.Forall₂
          (fun ed tr => tr.opacity = 3/5 ∧ tr.lineWidth = 3 * ed.2.weight)
          (determineVisibleElements G₂ sel hov dirs mode).2 s.edgeTraces) := by
  constructor
  · intro rf m G pos ves vns vns' mode mode'
    rfl
  · intro rf m sel dirs mode hov ts s h
    obtain ⟨G₁, G₂, ta, hG₁, hG₂, hta, het, _, _, _⟩ :=
      buildFigure_inversion rf m sel dirs mode hov ts s h
    refine ⟨G₁, G₂, hG₁, hG₂, ?_⟩
    rw [het]
    by_cases hv : (determineVisibleElements G₂ sel hov dirs mode).2 = []
    · rw [if_neg (fun hne => hne hv)] at hta
      simp only [pure, Except.pure, Except.ok.injEq] at hta
      subst hta
      rw [hv]
      exact List.Forall₂.nil
    · rw [if_pos hv] at hta
      unfold createEdgeTraces at hta
      obtain ⟨pairs, hpairs, hta⟩ := except_bind_ok _ _ _ hta
      simp only [pure, Except.pure, Except.ok.injEq] at hta
      subst hta
      rw [List.forall₂_map_right_iff]
      exact (exceptMapM_forall₂ _ _ _ hpairs).imp
        (fun ed p hp => edgeTraceOne_fields rf m G₂ G₁.posMap ed p hp)

/-- Witness for C10 at the fixture model: the downstream filter build of
`wModel` succeeds and its edge traces carry the claimed styling. -/
theorem c10_edge_trace_styling_witness :
    buildFigure wRF wModel (some "a") ["downstream"] "filter" none 7 =
      .ok wScene ∧
    (∃ G₁ G₂,
      buildNetworkxGraph wModel (assignStackedPositions wModel.nodes) =
        .ok G₁ ∧
      applyNodeStyles G₁ (some "a") none
        (determineInteractionState G₁ (some "a") none "filter").2.2 =
        .ok G₂ ∧
      List.Forall₂
        (fun ed tr => tr.opacity = 3/5 ∧ tr.lineWidth = 3 * ed.2.weight)
        (determineVisibleElements G₂ (some "a") none ["downstream"]
          "filter").2 wScene.edgeTraces) :=
  ⟨by with_unfolding_all rfl,
   c10_edge_trace_styling.2 wRF wModel (some "a") ["downstream"] "filter"
     none 7 wScene (by with_unfolding_all rfl)⟩

/-! ## C6: position determinism -/

/-- The hit-test trace does not see the style pass: it reads only ids,
labels and positions, all preserved by `_apply_node_styles`. -/
theorem createInteractiveNodeTrace_styled (m : Model) (G G' : Graph)
    (sel hov : Option String) (dim : List String)
    (pos : List (String × (ℚ × ℚ)))
    (h : applyNodeStyles G sel hov dim = .ok G') :
    createInteractiveNodeTrace m G' pos =
      createInteractiveNodeTrace m G pos := by
  obtain ⟨-, hf2⟩ := applyNodeStyles_inversion G G' sel hov dim h
  unfold createInteractiveNodeTrace
  have hmap : G'.nodes.mapM (fun gn => do
      let p ← exlookup pos gn.id
      let a ← G'.getAttr gn.id
      pure (p.1, p.2, a.label, gn.id)) =
    G.nodes.mapM (fun gn => do
      let p ← exlookup pos gn.id
      let a ← G.getAttr gn.id
      pure (p.1, p.2, a.label, gn.id)) := by
    apply exceptMapM_congr
    apply hf2.flip.imp
    intro gn' gn hrel
    obtain ⟨hids, a, hGa, -⟩ := styleOne_preserves _ _ _ _ _ _ hrel
    obtain ⟨a', hG'a, hl, -⟩ :=
      applyNodeStyles_getAttr G G' sel hov dim h gn.id a hGa
    rw [hids, hG'a, hGa]
    cases hpos : exlookup pos gn.id with
    | error e => simp [bind, Except.bind]
    | ok p => simp [bind, Except.bind, pure, Except.pure, hl]
  rw [hmap]

/-- C6: position assignment is deterministic and independent of interaction
inputs and the wall clock — any two successful builds over the same model,
whatever their selection, hover, mode, directions, timestamp or float
interpretation, produce identical hit-test traces, hence identical (x, y)
coordinates for every node. -/
theorem c6_position_determinism (m : Model) (rf rf' : RealFuns)
    (sel sel' hov hov' : Option String) (dirs dirs' : List String)
    (mode mode' : String) (ts ts' : ℕ) (s s' : Scene)
    (h : buildFigure rf m sel dirs mode hov ts = .ok s)
    (h' : buildFigure rf' m sel' dirs' mode' hov' ts' = .ok s') :
    s.interactiveTrace = s'.interactiveTrace := by
  obtain ⟨G₁, G₂, ta, hG₁, hG₂, -, -, -, hit, -⟩ :=
    buildFigure_inversion rf m sel dirs mode hov ts s h
  obtain ⟨H₁, H₂, tb, hH₁, hH₂, -, -, -, hit', -⟩ :=
    buildFigure_inversion rf' m sel' dirs' mode' hov' ts' s' h'
  rw [hG₁] at hH₁
  have hGH : G₁ = H₁ := Except.ok.inj hH₁
  subst hGH
  rw [createInteractiveNodeTrace_styled m G₁ G₂ sel hov _ G₁.posMap hG₂]
    at hit
  rw [createInteractiveNodeTrace_styled m G₁ H₂ sel' hov' _ G₁.posMap hH₂]
    at hit'
  rw [hit] at hit'
  exact Except.ok.inj hit'

/-- Witness for C6: two builds of the fixture model with different
interaction inputs, timestamps and float interpretations give the same
hit-test trace. -/
theorem c6_position_determinism_witness :
    buildFigure wRF wModel (some "a") ["downstream"] "filter" none 7 =
      .ok wScene ∧
    ∃ s', buildFigure ⟨fun q => q, fun q => q⟩ wModel none
        ["upstream", "downstream"] "interactive" (some "b") 99 = .ok s' ∧
      wScene.interactiveTrace = s'.interactiveTrace := by
  refine ⟨by with_unfolding_all rfl,
    ((buildFigure ⟨fun q => q, fun q => q⟩ wModel none
        ["upstream", "downstream"] "interactive" (some "b") 99).toOption.getD
      emptyScene), by with_unfolding_all rfl, ?_⟩
  exact c6_position_determinism wModel wRF ⟨fun q => q, fun q => q⟩
    (some "a") none none (some "b") ["downstream"] ["upstream", "downstream"]
    "filter" "interactive" 7 99 wScene _
    (by with_unfolding_all rfl) (by with_unfolding_all rfl)

/-! ## C1: totality of the figure build -/

/-- A fold preserves any invariant its steps preserve. -/
theorem foldl_preserves {α σ : Type} (step : σ → α → σ) (P : σ → Prop)
    (l : List α) (hstep : ∀ s a, a ∈ l → P s → P (step s a)) :
    ∀ s, P s → P (l.foldl step s) := by
  induction l with
  | nil => intro s hs; exact hs
  | cons a t ih =>
    intro s hs
    rw [List.foldl_cons]
    exact ih (fun s' b hb hP => hstep s' b (List.mem_cons_of_mem a hb) hP)
      _ (hstep s a (List.mem_cons_self a t) hs)

/-- A fold establishes any property that one of its steps establishes
unconditionally and the remaining steps preserve. -/
theorem foldl_establishes {α σ : Type} (step : σ → α → σ) (P : σ → Prop)
    (l : List α) (a : α) (ha : a ∈ l)
    (hstep : ∀ s b, b ∈ l → P s → P (step s b))
    (hest : ∀ s, P (step s a)) :
    ∀ s, P (l.foldl step s) := by
  induction l with
  | nil => exact absurd ha (List.not_mem_nil a)
  | cons b t ih =>
    intro s
    rw [List.foldl_cons]
    rcases List.mem_cons.mp ha with hab | hat
    · subst hab
      exact foldl_preserves step P t
        (fun s' c hc hP => hstep s' c (List.mem_cons_of_mem _ hc) hP)
        _ (hest s)
    · exact ih hat
        (fun s' c hc hP => hstep s' c (List.mem_cons_of_mem _ hc) hP) _

/-- Every element of the third list appears as the last component of some
element of a triple zip of equal lengths. -/
theorem mem_zip3 {α β γ : Type} :
    ∀ (l₁ : List α) (l₂ : List β) (l₃ : List γ) (c : γ),
      l₁.length = l₃.length → l₂.length = l₃.length → c ∈ l₃ →
      ∃ p ∈ l₁.zip (l₂.zip l₃), p.2.2 = c := by
  intro l₁ l₂ l₃
  induction l₃ generalizing l₁ l₂ with
  | nil => intro c _ _ hc; exact absurd hc (List.not_mem_nil c)
  | cons c0 t ih =>
    intro c h1 h2 hc
    cases l₁ with
    | nil => exact absurd h1 (by simp)
    | cons a1 t1 =>
      cases l₂ with
      | nil => exact absurd h2 (by simp)
      | cons a2 t2 =>
        rcases List.mem_cons.mp hc with hcc | hct
        · subst hcc
          exact ⟨(a1, a2, c), List.mem_cons_self _ _, rfl⟩
        · obtain ⟨p, hp, hpc⟩ := ih t1 t2 c (by simpa using h1)
            (by simpa using h2) hct
          exact ⟨p, List.mem_cons_of_mem _ hp, hpc⟩

/-- np.isclose is reflexive. -/
theorem isClose_self (a : ℚ) : isClose a a = true := by
  unfold isClose
  rw [decide_eq_true_eq]
  rw [sub_self, abs_zero]
  positivity

/-- Length of the local Y grid. -/
theorem calculateYGrid_length (count : ℕ) (s : ℚ) :
    (calculateYGrid count s).length = count := by
  unfold calculateYGrid
  by_cases h1 : count = 1
  · subst h1; rfl
  · rw [if_neg h1]
    simp only [List.length_map]
    unfold linspaceQ
    by_cases h0 : count = 0
    · subst h0; simp
    · rw [if_neg h0, if_neg h1]
      simp only [List.length_map, List.length_range]

/-- The retry loop always returns a grid of the batch size. -/
theorem findNonCollidingGrid_length (count : ℕ) (tOff : ℚ)
    (hs : List ℚ) (used : List ((ℤ × ℚ) × ℚ)) (xg : ℤ) :
    ∀ (fuel : ℕ) (s : ℚ),
      (findNonCollidingGrid fuel count s tOff hs used xg).length = count := by
  intro fuel
  induction fuel with
  | zero =>
    intro s
    unfold findNonCollidingGrid
    by_cases h : hasIntelligentCollisions
        ((calculateYGrid count s).map (fun o => tOff + o)) hs used xg = true
    · simp [h, calculateYGrid_length]
    · simp [h, calculateYGrid_length]
  | succ n ih =>
    intro s
    unfold findNonCollidingGrid
    by_cases h : hasIntelligentCollisions
        ((calculateYGrid count s).map (fun o => tOff + o)) hs used xg = true
    · simp only [h, if_true]
      exact ih (s * (27/25))
    · simp [h, calculateYGrid_length]

/-- Every domain whose maturity lies on a tier band receives a position. -/
theorem assign_covers (nodes : List Node) (n : Node) (hn : n ∈ nodes)
    (hmat : n.maturity ∈ tierBandKeys) :
    (alookup (assignStackedPositions nodes) n.id).isSome := by
  unfold assignStackedPositions
  dsimp only
  refine foldl_establishes _
    (fun st : List (String × (ℚ × ℚ)) × List ((ℤ × ℚ) × ℚ) =>
      (alookup st.1 n.id).isSome) tierBandKeys n.maturity hmat
    ?_ ?_ ([], [])
  · -- every tier step preserves the invariant
    intro st tier _ hst
    dsimp only
    refine foldl_preserves _
      (fun st : List (String × (ℚ × ℚ)) × List ((ℤ × ℚ) × ℚ) =>
        (alookup st.1 n.id).isSome) _
      ?_ st hst
    intro st' xg _ hst'
    dsimp only
    refine foldl_preserves _
      (fun st : List (String × (ℚ × ℚ)) × List ((ℤ × ℚ) × ℚ) =>
        (alookup st.1 n.id).isSome) _
      ?_ st' hst'
    intro st2 p _ hst2
    exact alookup_ainsert_isSome _ _ _ _ hst2
  · -- the tier of n itself establishes it
    intro st
    dsimp only
    have hmem_tier : n ∈ nodes.filter (fun x => isClose x.maturity n.maturity) :=
      List.mem_filter.mpr ⟨hn, isClose_self n.maturity⟩
    have hmem_xg : n.xGroup ∈ sortedUnique
        ((nodes.filter (fun x => isClose x.maturity n.maturity)).map
          (fun x => x.xGroup)) := by
      rw [mem_sortedUnique]
      exact List.mem_map.mpr ⟨n, hmem_tier, rfl⟩
    refine foldl_establishes _
      (fun st : List (String × (ℚ × ℚ)) × List ((ℤ × ℚ) × ℚ) =>
        (alookup st.1 n.id).isSome) _ n.xGroup hmem_xg ?_ ?_ st
    · intro st' xg _ hst'
      dsimp only
      refine foldl_preserves _
        (fun st : List (String × (ℚ × ℚ)) × List ((ℤ × ℚ) × ℚ) =>
          (alookup st.1 n.id).isSome) _
        ?_ st' hst'
      intro st2 p _ hst2
      exact alookup_ainsert_isSome _ _ _ _ hst2
    · intro st'
      dsimp only
      have hmem_group : n ∈ (nodes.filter
          (fun x => isClose x.maturity n.maturity)).filter
          (fun x => x.xGroup = n.xGroup) :=
        List.mem_filter.mpr ⟨hmem_tier, by simp⟩
      have hmem_sorted : n ∈ pyStableSort (fun a b => pyStrLe a.name b.name)
          ((nodes.filter (fun x => isClose x.maturity n.maturity)).filter
            (fun x => x.xGroup = n.xGroup)) := by
        rw [mem_pyStableSort]
        exact hmem_group
      obtain ⟨p, hp, hpn⟩ := mem_zip3
        (findNonCollidingGrid 14
          (pyStableSort (fun a b => pyStrLe a.name b.name)
            ((nodes.filter (fun x => isClose x.maturity n.maturity)).filter
              (fun x => x.xGroup = n.xGroup))).length localYSpacing
          ((alookup calculateTierOffsets n.maturity).getD 0)
          ((pyStableSort (fun a b => pyStrLe a.name b.name)
            ((nodes.filter (fun x => isClose x.maturity n.maturity)).filter
              (fun x => x.xGroup = n.xGroup))).map
            (fun x => ((alookup (precalculateNodeDimensions nodes) x.id).getD
              defaultDim).height))
          st'.2 n.xGroup)
        ((pyStableSort (fun a b => pyStrLe a.name b.name)
          ((nodes.filter (fun x => isClose x.maturity n.maturity)).filter
            (fun x => x.xGroup = n.xGroup))).map
          (fun x => ((alookup (precalculateNodeDimensions nodes) x.id).getD
            defaultDim).height))
        (pyStableSort (fun a b => pyStrLe a.name b.name)
          ((nodes.filter (fun x => isClose x.maturity n.maturity)).filter
            (fun x => x.xGroup = n.xGroup)))
        n
        (findNonCollidingGrid_length _ _ _ _ _ _ _)
        (by rw [List.length_map])
        hmem_sorted
      refine foldl_establishes _
        (fun st : List (String × (ℚ × ℚ)) × List ((ℤ × ℚ) × ℚ) =>
          (alookup st.1 n.id).isSome) _ p hp ?_ ?_ st'
      · intro st2 q _ hst2
        exact alookup_ainsert_isSome _ _ _ _ hst2
      · intro st2
        dsimp only
        rw [hpn]
        rw [alookup_ainsert_self]
        rfl

/-- Membership after a dictionary insert: the element was already present or
is the written pair. -/
theorem mem_ainsert {K V : Type} [DecidableEq K]
    (d : List (K × V)) (k : K) (v : V) (x : K × V)
    (h : x ∈ ainsert d k v) : x ∈ d ∨ x = (k, v) := by
  induction d with
  | nil =>
    simp only [ainsert] at h
    exact Or.inr (List.mem_singleton.mp h)
  | cons p t ih =>
    by_cases hp : p.1 = k
    · simp only [ainsert, if_pos hp, List.mem_cons] at h
      rcases h with hx | hx
      · exact Or.inr hx
      · exact Or.inl (List.mem_cons_of_mem p hx)
    · simp only [ainsert, if_neg hp, List.mem_cons] at h
      rcases h with hx | hx
      · exact Or.inl (hx ▸ List.mem_cons_self p t)
      · rcases ih hx with h1 | h1
        · exact Or.inl (List.mem_cons_of_mem p h1)
        · exact Or.inr h1

/-- A `KeyError`-raising lookup succeeds on present keys. -/
theorem exlookup_ok_of_isSome {K V : Type} [DecidableEq K]
    (d : List (K × V)) (k : K) (h : (alookup d k).isSome = true) :
    ∃ v, exlookup d k = .ok v := by
  cases hl : alookup d k with
  | none => rw [hl] at h; exact absurd h (by simp)
  | some v => exact ⟨v, by unfold exlookup; rw [hl]⟩

/-- A dictionary with a present key is nonempty. -/
theorem ne_nil_of_alookup_isSome {K V : Type} [DecidableEq K]
    (d : List (K × V)) (k : K) (h : (alookup d k).isSome = true) :
    d ≠ [] := by
  intro he
  subst he
  simp [alookup] at h

/-- The node-existence test used by `add_node`/`add_edge` agrees with id
membership. -/
theorem graph_any_id (l : List GNode) (i : String) :
    l.any (fun gn => decide (gn.id = i)) = true ↔ ∃ gn ∈ l, gn.id = i := by
  rw [List.any_eq_true]
  constructor
  · rintro ⟨gn, hgn, hd⟩
    exact ⟨gn, hgn, of_decide_eq_true hd⟩
  · rintro ⟨gn, hgn, hd⟩
    exact ⟨gn, hgn, decide_eq_true hd⟩

/-- `G.nodes()` membership unfolded. -/
theorem mem_nodeIds (G : Graph) (i : String) :
    i ∈ G.nodeIds ↔ ∃ gn ∈ G.nodes, gn.id = i := by
  unfold Graph.nodeIds
  rw [List.mem_map]

/-- A row lookup in the domain table succeeds when a row with the id
exists. -/
theorem model_find_ok (m : Model) (i : String)
    (hi : ∃ n ∈ m.nodes, n.id = i) :
    ∃ n, m.nodes.find? (fun n => decide (n.id = i)) = some n ∧
      n ∈ m.nodes := by
  rcases hi with ⟨n, hn, hid⟩
  have hfs : (m.nodes.find? (fun n => decide (n.id = i))).isSome := by
    rw [List.find?_isSome]
    exact ⟨n, hn, by simpa using hid⟩
  rcases Option.isSome_iff_exists.mp hfs with ⟨n', hn'⟩
  exact ⟨n', hn', List.mem_of_find?_eq_some hn'⟩

/-- The X-group subscript succeeds on ids present in the domain table, and
returns some row's X-group. -/
theorem dfXGroup_ok (m : Model) (i : String)
    (hi : ∃ n ∈ m.nodes, n.id = i) :
    ∃ n ∈ m.nodes, dfXGroup m i = .ok n.xGroup := by
  obtain ⟨n', hn', hmem⟩ := model_find_ok m i hi
  refine ⟨n', hmem, ?_⟩
  unfold dfXGroup
  rw [hn']

/-- Reading a node's attribute dict succeeds when all nodes carry
attributes and the id is present. -/
theorem getAttr_ok (G : Graph) (h : ∀ gn ∈ G.nodes, gn.attrs.isSome = true)
    (i : String) (hi : i ∈ G.nodeIds) : ∃ a, G.getAttr i = .ok a := by
  rcases (mem_nodeIds G i).mp hi with ⟨gn, hgn, hid⟩
  have hfs : (G.nodes.find? (fun gn => decide (gn.id = i))).isSome := by
    rw [List.find?_isSome]
    exact ⟨gn, hgn, by simpa using hid⟩
  rcases Option.isSome_iff_exists.mp hfs with ⟨gn', hgn'⟩
  have hmem : gn' ∈ G.nodes := List.mem_of_find?_eq_some hgn'
  rcases Option.isSome_iff_exists.mp (h gn' hmem) with ⟨a, ha⟩
  refine ⟨a, ?_⟩
  unfold Graph.getAttr
  rw [hgn']
  dsimp only
  rw [ha]

/-- Auxiliary form of position coverage over the raw node list. -/
theorem posMap_covers_aux (l : List GNode)
    (h : ∀ gn ∈ l, gn.attrs.isSome = true) (i : String)
    (hi : ∃ gn ∈ l, gn.id = i) :
    (alookup (l.filterMap
      (fun gn => gn.attrs.map (fun a => (gn.id, a.pos)))) i).isSome = true := by
  induction l with
  | nil =>
    rcases hi with ⟨gn, hgn, -⟩
    exact absurd hgn (List.not_mem_nil gn)
  | cons gn t ih =>
    rcases Option.isSome_iff_exists.mp
      (h gn (List.mem_cons_self gn t)) with ⟨a, ha⟩
    rw [List.filterMap_cons, ha]
    dsimp only [Option.map_some']
    by_cases hid : gn.id = i
    · simp [alookup, hid]
    · simp only [alookup, if_neg hid]
      rcases hi with ⟨gn', hgn', hid'⟩
      rcases List.mem_cons.mp hgn' with hx | hx
      · exact absurd (hx ▸ hid') hid
      · exact ih (fun x hxm => h x (List.mem_cons_of_mem gn hxm))
          ⟨gn', hx, hid'⟩

/-- Every present node id has an entry in the position dictionary once all
nodes carry attributes. -/
theorem posMap_covers (G : Graph)
    (h : ∀ gn ∈ G.nodes, gn.attrs.isSome = true) (i : String)
    (hi : i ∈ G.nodeIds) : (alookup G.posMap i).isSome = true :=
  posMap_covers_aux G.nodes h i ((mem_nodeIds G i).mp hi)

/-- Every key of the position dictionary is a node id. -/
theorem posMap_keys (G : Graph) :
    ∀ p ∈ G.posMap, ∃ gn ∈ G.nodes, gn.id = p.1 := by
  intro p hp
  unfold Graph.posMap at hp
  rcases List.mem_filterMap.mp hp with ⟨gn, hgn, hf⟩
  cases ha : gn.attrs with
  | none => rw [ha] at hf; exact absurd hf (by simp)
  | some a =>
    rw [ha] at hf
    simp only [Option.map_some', Option.some.injEq] at hf
    exact ⟨gn, hgn, by rw [← hf]⟩

/-- `bind` on a success reduces to the continuation. -/
theorem except_ok_bind {α β : Type} (a : α) (f : α → Except String β) :
    (bind (Except.ok a) f : Except String β) = f a := rfl

/-- A bind succeeds when its head and continuation do. -/
theorem except_bind_exists {α β : Type} {e : Except String α}
    {k : α → Except String β} (he : ∃ v, e = .ok v)
    (hk : ∀ v, ∃ s, k v = .ok s) : ∃ s, (bind e k : Except String β) = .ok s := by
  obtain ⟨v, hv⟩ := he
  obtain ⟨s, hs⟩ := hk v
  exact ⟨s, by rw [hv, except_ok_bind]; exact hs⟩

/-- An `Except` fold carries an invariant along its successful steps. -/
theorem exceptFoldlM_preserves {α β : Type} (f : β → α → Except String β)
    (P : β → Prop) (l : List α)
    (hpres : ∀ s s' b, b ∈ l → f s b = .ok s' → P s → P s') :
    ∀ init s', l.foldlM f init = .ok s' → P init → P s' := by
  induction l with
  | nil =>
    intro init s' h hP
    simp only [List.foldlM_nil, pure, Except.pure, Except.ok.injEq] at h
    exact h ▸ hP
  | cons b t ih =>
    intro init s' h hP
    rw [List.foldlM_cons] at h
    cases hfb : f init b with
    | error e =>
      rw [hfb] at h
      exact absurd h (by simp [bind, Except.bind])
    | ok s1 =>
      rw [hfb] at h
      simp only [bind, Except.bind] at h
      exact ih (fun s s'' c hc => hpres s s'' c (List.mem_cons_of_mem b hc))
        s1 s' h (hpres init s1 b (List.mem_cons_self b t) hfb hP)

/-- An `Except` fold establishes any property one of its steps establishes
unconditionally, provided every step succeeds and the rest preserve it. -/
theorem exceptFoldlM_establishes {α β : Type} (f : β → α → Except String β)
    (P : β → Prop) (l : List α) (a : α) (ha : a ∈ l)
    (hok : ∀ s b, b ∈ l → ∃ s', f s b = .ok s')
    (hpres : ∀ s s' b, b ∈ l → f s b = .ok s' → P s → P s')
    (hest : ∀ s s', f s a = .ok s' → P s') :
    ∀ init s', l.foldlM f init = .ok s' → P s' := by
  induction l with
  | nil => exact absurd ha (List.not_mem_nil a)
  | cons b t ih =>
    intro init s' hfold
    rw [List.foldlM_cons] at hfold
    obtain ⟨s1, hs1⟩ := hok init b (List.mem_cons_self b t)
    rw [hs1] at hfold
    simp only [bind, Except.bind] at hfold
    rcases List.mem_cons.mp ha with hab | hat
    · subst hab
      exact exceptFoldlM_preserves f P t
        (fun s s'' c hc => hpres s s'' c (List.mem_cons_of_mem a hc))
        s1 s' hfold (hest init s1 hs1)
    · exact ih hat (fun s c hc => hok s c (List.mem_cons_of_mem b hc))
        (fun s s'' c hc => hpres s s'' c (List.mem_cons_of_mem b hc))
        s1 s' hfold

/-- `add_node` leaves the edge dict untouched. -/
theorem addNode_edges (G : Graph) (i : String) (a : NodeAttrs) :
    (G.addNode i a).edges = G.edges := by
  unfold Graph.addNode
  split <;> rfl

/-- After `add_node` with full attributes, all nodes still carry
attributes. -/
theorem addNode_allAttrs (G : Graph) (i : String) (a : NodeAttrs)
    (h : ∀ gn ∈ G.nodes, gn.attrs.isSome = true) :
    ∀ gn ∈ (G.addNode i a).nodes, gn.attrs.isSome = true := by
  intro gn hgn
  unfold Graph.addNode at hgn
  by_cases hc : G.nodes.any (fun gn => decide (gn.id = i)) = true
  · rw [if_pos hc] at hgn
    dsimp only at hgn
    rcases List.mem_map.mp hgn with ⟨gn0, hgn0, heq⟩
    subst heq
    by_cases hid : gn0.id = i
    · rw [if_pos hid]
      rfl
    · rw [if_neg hid]
      exact h gn0 hgn0
  · rw [if_neg hc] at hgn
    dsimp only at hgn
    rcases List.mem_append.mp hgn with hgn1 | hgn1
    · exact h gn hgn1
    · rw [List.mem_singleton.mp hgn1]
      rfl

/-- Every node of an `add_node` result has the written id or an id already
present. -/
theorem addNode_ids_from (G : Graph) (i : String) (a : NodeAttrs) :
    ∀ gn ∈ (G.addNode i a).nodes, gn.id = i ∨ gn.id ∈ G.nodeIds := by
  intro gn hgn
  unfold Graph.addNode at hgn
  by_cases hc : G.nodes.any (fun gn => decide (gn.id = i)) = true
  · rw [if_pos hc] at hgn
    dsimp only at hgn
    rcases List.mem_map.mp hgn with ⟨gn0, hgn0, heq⟩
    subst heq
    by_cases hid : gn0.id = i
    · rw [if_pos hid]
      exact Or.inl hid
    · rw [if_neg hid]
      exact Or.inr ((mem_nodeIds G gn0.id).mpr ⟨gn0, hgn0, rfl⟩)
  · rw [if_neg hc] at hgn
    dsimp only at hgn
    rcases List.mem_append.mp hgn with hgn1 | hgn1
    · exact Or.inr ((mem_nodeIds G gn.id).mpr ⟨gn, hgn1, rfl⟩)
    · rw [List.mem_singleton.mp hgn1]
      exact Or.inl rfl

/-- The written id is present after `add_node`. -/
theorem addNode_id_mem (G : Graph) (i : String) (a : NodeAttrs) :
    i ∈ (G.addNode i a).nodeIds := by
  rw [mem_nodeIds]
  unfold Graph.addNode
  by_cases hc : G.nodes.any (fun gn => decide (gn.id = i)) = true
  · rw [if_pos hc]
    dsimp only
    rcases (graph_any_id G.nodes i).mp hc with ⟨gn, hgn, hid⟩
    refine ⟨if gn.id = i then { gn with attrs := some a } else gn,
      List.mem_map.mpr ⟨gn, hgn, rfl⟩, ?_⟩
    rw [if_pos hid]
    exact hid
  · rw [if_neg hc]
    dsimp only
    exact ⟨⟨i, some a⟩, List.mem_append_right _ (List.mem_singleton.mpr rfl),
      rfl⟩

/-- Ids present before an `add_node` stay present. -/
theorem addNode_preserves_ids (G : Graph) (i : String) (a : NodeAttrs) :
    ∀ j ∈ G.nodeIds, j ∈ (G.addNode i a).nodeIds := by
  intro j hj
  rcases (mem_nodeIds G j).mp hj with ⟨gn, hgn, hid⟩
  rw [mem_nodeIds]
  unfold Graph.addNode
  by_cases hc : G.nodes.any (fun gn => decide (gn.id = i)) = true
  · rw [if_pos hc]
    dsimp only
    refine ⟨if gn.id = i then { gn with attrs := some a } else gn,
      List.mem_map.mpr ⟨gn, hgn, rfl⟩, ?_⟩
    by_cases hgi : gn.id = i
    · rw [if_pos hgi]
      exact hid
    · rw [if_neg hgi]
      exact hid
  · rw [if_neg hc]
    dsimp only
    exact ⟨gn, List.mem_append_left _ hgn, hid⟩

/-- `add_edge` between present endpoints changes only the edge dict. -/
theorem addEdge_of_present (G : Graph) (u v : String) (d : EdgeData)
    (hu : ∃ gn ∈ G.nodes, gn.id = u) (hv : ∃ gn ∈ G.nodes, gn.id = v) :
    (G.addEdge u v d).nodes = G.nodes ∧
    (G.addEdge u v d).edges = ainsert G.edges (u, v) d := by
  unfold Graph.addEdge
  dsimp only
  rw [if_pos ((graph_any_id G.nodes u).mpr hu),
    if_pos ((graph_any_id G.nodes v).mpr hv)]
  exact ⟨rfl, rfl⟩

/-- Goal-directed decomposition of a bind whose head is an invariant-carrying
`Except` fold. -/
theorem bind_foldlM_spec {α β γ : Type} {f : β → α → Except String β}
    {k : β → Except String γ} {l : List α} {init : β}
    (P : β → Prop) (Pout : γ → Prop)
    (hinit : P init)
    (hstep : ∀ s a, a ∈ l → P s → ∃ s', f s a = .ok s' ∧ P s')
    (hk : ∀ s, l.foldlM f init = .ok s → P s →
      ∃ g, k s = .ok g ∧ Pout g) :
    ∃ g, (bind (l.foldlM f init) k : Except String γ) = .ok g ∧ Pout g := by
  obtain ⟨s, hs, hPs⟩ := exceptFoldlM_ok f P l init hinit hstep
  obtain ⟨g, hg, hPg⟩ := hk s hs hPs
  exact ⟨g, by rw [hs, except_ok_bind]; exact hg, hPg⟩

/-- `_build_networkx_graph` succeeds when every domain has a position; the
resulting graph has all node attributes populated, node ids exactly drawn
from the model (covering it), and — under edge validity — edge endpoints
drawn from the model. -/
theorem buildNetworkxGraph_spec (m : Model)
    (positions : List (String × (ℚ × ℚ)))
    (hpos : ∀ n ∈ m.nodes, (alookup positions n.id).isSome = true)
    (hedges : ∀ e ∈ m.edges, (∃ n ∈ m.nodes, n.id = e.source) ∧
      (∃ n ∈ m.nodes, n.id = e.target)) :
    ∃ G, buildNetworkxGraph m positions = .ok G ∧
      (∀ gn ∈ G.nodes, gn.attrs.isSome = true) ∧
      (∀ gn ∈ G.nodes, ∃ n ∈ m.nodes, n.id = gn.id) ∧
      (∀ n ∈ m.nodes, n.id ∈ G.nodeIds) ∧
      (∀ ed ∈ G.edges, (∃ n ∈ m.nodes, n.id = ed.1.1) ∧
        (∃ n ∈ m.nodes, n.id = ed.1.2)) := by
  unfold buildNetworkxGraph
  dsimp only
  refine bind_foldlM_spec
    (fun G : Graph => (∀ gn ∈ G.nodes, gn.attrs.isSome = true) ∧
      (∀ gn ∈ G.nodes, ∃ n ∈ m.nodes, n.id = gn.id) ∧ G.edges = []) _
    ⟨fun gn h => absurd h (List.not_mem_nil gn),
     fun gn h => absurd h (List.not_mem_nil gn), rfl⟩ ?_ ?_
  · -- each node step succeeds and keeps the invariant
    intro s n hn hP
    rcases Option.isSome_iff_exists.mp (hpos n hn) with ⟨p, hp⟩
    have hex : exlookup positions n.id = .ok p := by
      unfold exlookup
      rw [hp]
    refine ⟨s.addNode n.id
      { label := n.name,
        wrappedLabel := ((alookup (precalculateNodeDimensions m.nodes)
          n.id).getD defaultDim).wrapped,
        category := n.category, color := n.colorHex, border := n.borderHex,
        originalBorder := n.borderHex, pos := p,
        width := ((alookup (precalculateNodeDimensions m.nodes)
          n.id).getD defaultDim).width,
        height := ((alookup (precalculateNodeDimensions m.nodes)
          n.id).getD defaultDim).height }, ?_, ?_, ?_, ?_⟩
    · dsimp only
      rw [hex, except_ok_bind]
      rfl
    · exact addNode_allAttrs s n.id _ hP.1
    · intro gn hgn
      rcases addNode_ids_from s n.id _ gn hgn with hgi | hgi
      · exact ⟨n, hn, hgi.symm⟩
      · rcases (mem_nodeIds s gn.id).mp hgi with ⟨gn0, hgn0, hid0⟩
        rcases hP.2.1 gn0 hgn0 with ⟨n0, hn0, hnid0⟩
        exact ⟨n0, hn0, by rw [hnid0, hid0]⟩
    · rw [addNode_edges]
      exact hP.2.2
  · -- the edge phase
    intro G0 hfold hP
    obtain ⟨hAll0, hFrom0, hE0⟩ := hP
    have hCov : ∀ n ∈ m.nodes, n.id ∈ G0.nodeIds := by
      intro n hn
      refine exceptFoldlM_establishes _ (fun s => n.id ∈ s.nodeIds)
        m.nodes n hn ?_ ?_ ?_ _ G0 hfold
      · intro s b hb
        rcases Option.isSome_iff_exists.mp (hpos b hb) with ⟨p, hp⟩
        have hex : exlookup positions b.id = .ok p := by
          unfold exlookup
          rw [hp]
        refine ⟨s.addNode b.id
          { label := b.name,
            wrappedLabel := ((alookup (precalculateNodeDimensions m.nodes)
              b.id).getD defaultDim).wrapped,
            category := b.category, color := b.colorHex,
            border := b.borderHex,
            originalBorder := b.borderHex, pos := p,
            width := ((alookup (precalculateNodeDimensions m.nodes)
              b.id).getD defaultDim).width,
            height := ((alookup (precalculateNodeDimensions m.nodes)
              b.id).getD defaultDim).height }, ?_⟩
        rw [hex, except_ok_bind]
        rfl
      · intro s s' b hb hfb hmem
        rcases Option.isSome_iff_exists.mp (hpos b hb) with ⟨p, hp⟩
        have hex : exlookup positions b.id = .ok p := by
          unfold exlookup
          rw [hp]
        rw [hex, except_ok_bind] at hfb
        simp only [pure, Except.pure, Except.ok.injEq] at hfb
        rw [← hfb]
        exact addNode_preserves_ids s b.id _ n.id hmem
      · intro s s' hfb
        rcases Option.isSome_iff_exists.mp (hpos n hn) with ⟨p, hp⟩
        have hex : exlookup positions n.id = .ok p := by
          unfold exlookup
          rw [hp]
        rw [hex, except_ok_bind] at hfb
        simp only [pure, Except.pure, Except.ok.injEq] at hfb
        rw [← hfb]
        exact addNode_id_mem s n.id _
    refine ⟨_, rfl, ?_⟩
    have hQ : (m.edges.foldl
        (fun G e => G.addEdge e.source e.target
          ⟨e.weight, e.tier, e.description⟩) G0).nodes = G0.nodes ∧
        (∀ ed ∈ (m.edges.foldl
          (fun G e => G.addEdge e.source e.target
            ⟨e.weight, e.tier, e.description⟩) G0).edges,
          (∃ n ∈ m.nodes, n.id = ed.1.1) ∧
          (∃ n ∈ m.nodes, n.id = ed.1.2)) := by
      refine foldl_preserves _
        (fun G : Graph => G.nodes = G0.nodes ∧
          ∀ ed ∈ G.edges, (∃ n ∈ m.nodes, n.id = ed.1.1) ∧
            (∃ n ∈ m.nodes, n.id = ed.1.2)) m.edges ?_ G0
        ⟨rfl, by rw [hE0]; intro ed h; exact absurd h (List.not_mem_nil ed)⟩
      intro s e he hQ
      obtain ⟨hnodes, hed⟩ := hQ
      have hu : ∃ gn ∈ s.nodes, gn.id = e.source := by
        rcases (hedges e he).1 with ⟨n, hn, hid⟩
        rcases (mem_nodeIds G0 n.id).mp (hCov n hn) with ⟨gn, hgn, hgid⟩
        exact ⟨gn, hnodes ▸ hgn, by rw [hgid, hid]⟩
      have hv : ∃ gn ∈ s.nodes, gn.id = e.target := by
        rcases (hedges e he).2 with ⟨n, hn, hid⟩
        rcases (mem_nodeIds G0 n.id).mp (hCov n hn) with ⟨gn, hgn, hgid⟩
        exact ⟨gn, hnodes ▸ hgn, by rw [hgid, hid]⟩
      obtain ⟨hns, hes⟩ := addEdge_of_present s e.source e.target
        ⟨e.weight, e.tier, e.description⟩ hu hv
      refine ⟨by rw [hns, hnodes], ?_⟩
      intro ed hmem
      rw [hes] at hmem
      rcases mem_ainsert s.edges (e.source, e.target)
        ⟨e.weight, e.tier, e.description⟩ ed hmem with hold | hnew
      · exact hed ed hold
      · rw [hnew]
        exact hedges e he
    refine ⟨hQ.1 ▸ hAll0, hQ.1 ▸ hFrom0, ?_, hQ.2⟩
    intro n hn
    have : (m.edges.foldl
        (fun G e => G.addEdge e.source e.target
          ⟨e.weight, e.tier, e.description⟩) G0).nodeIds = G0.nodeIds := by
      unfold Graph.nodeIds
      rw [hQ.1]
    rw [this]
    exact hCov n hn

/-- Directional edges are edges of the graph. -/
theorem getDirectionalEdges_sub (G : Graph) (node : String)
    (dirs : List String) :
    ∀ e ∈ getDirectionalEdges G node dirs, e ∈ G.edges := by
  intro e he
  unfold getDirectionalEdges at he
  rcases List.mem_append.mp he with h1 | h1
  · by_cases hu : "upstream" ∈ dirs
    · rw [if_pos hu] at h1
      unfold Graph.inEdges at h1
      exact (List.mem_filter.mp h1).1
    · rw [if_neg hu] at h1
      exact absurd h1 (List.not_mem_nil e)
  · by_cases hd : "downstream" ∈ dirs
    · rw [if_pos hd] at h1
      unfold Graph.outEdges at h1
      exact (List.mem_filter.mp h1).1
    · rw [if_neg hd] at h1
      exact absurd h1 (List.not_mem_nil e)

/-- The visible-edge list computed for any interaction inputs is a subset of
the graph's edges. -/
theorem visibleEdges_sub (G : Graph) (sel hov : Option String)
    (dirs : List String) (mode : String) :
    ∀ e ∈ (determineVisibleElements G sel hov dirs mode).2, e ∈ G.edges := by
  intro e he
  unfold determineVisibleElements at he
  dsimp only at he
  by_cases hm : mode = "filter"
  · rw [if_pos hm] at he
    cases hsel : (if sel = some "All" then none else sel) with
    | none =>
      rw [hsel] at he
      exact he
    | some s =>
      rw [hsel] at he
      dsimp only at he
      by_cases hc : s ≠ "" ∧ s ∈ G.nodeIds
      · rw [if_pos hc] at he
        exact getDirectionalEdges_sub G s dirs e he
      · rw [if_neg hc] at he
        exact he
  · rw [if_neg hm] at he
    by_cases hi : mode = "interactive"
    · rw [if_pos hi] at he
      cases hsel : (if sel = some "All" then none else sel) with
      | none =>
        rw [hsel] at he
        exact he
      | some s =>
        rw [hsel] at he
        dsimp only at he
        by_cases hc : s ≠ "" ∧ s ∈ G.nodeIds
        · rw [if_pos hc] at he
          exact getDirectionalEdges_sub G s dirs e he
        · rw [if_neg hc] at he
          exact he
    · rw [if_neg hi] at he
      exact absurd he (List.not_mem_nil e)

/-- One edge trace computation succeeds on an edge with placed, attributed
endpoints drawn from the model. -/
theorem edgeTraceOne_ok (rf : RealFuns) (m : Model) (G : Graph)
    (pos : List (String × (ℚ × ℚ))) (ed : (String × String) × EdgeData)
    (hu : (alookup pos ed.1.1).isSome = true)
    (hv : (alookup pos ed.1.2).isSome = true)
    (hxu : ∃ n ∈ m.nodes, n.id = ed.1.1)
    (hxv : ∃ n ∈ m.nodes, n.id = ed.1.2)
    (hau : ∃ a, G.getAttr ed.1.1 = .ok a)
    (hav : ∃ a, G.getAttr ed.1.2 = .ok a) :
    ∃ r, edgeTraceOne rf m G pos ed = .ok r := by
  obtain ⟨p0, hp0⟩ := exlookup_ok_of_isSome pos ed.1.1 hu
  obtain ⟨p1, hp1⟩ := exlookup_ok_of_isSome pos ed.1.2 hv
  obtain ⟨n0, -, hx0⟩ := dfXGroup_ok m ed.1.1 hxu
  obtain ⟨n1, -, hx1⟩ := dfXGroup_ok m ed.1.2 hxv
  obtain ⟨a0, ha0⟩ := hau
  obtain ⟨a1, ha1⟩ := hav
  unfold edgeTraceOne
  dsimp only
  rw [hp0, hp1, hx0, hx1, ha0, ha1]
  exact ⟨_, rfl⟩

/-- The edge-trace pass succeeds when each visible edge does. -/
theorem createEdgeTraces_ok (rf : RealFuns) (m : Model) (G : Graph)
    (pos : List (String × (ℚ × ℚ)))
    (ves : List ((String × String) × EdgeData)) (vns : List String)
    (mode : String)
    (h : ∀ ed ∈ ves, ∃ r, edgeTraceOne rf m G pos ed = .ok r) :
    ∃ ta, createEdgeTraces rf m G pos ves vns mode = .ok ta := by
  obtain ⟨rs, hrs⟩ := exceptMapM_ok_of_forall _ ves h
  refine ⟨(rs.map Prod.fst, rs.map Prod.snd), ?_⟩
  unfold createEdgeTraces
  rw [hrs, except_ok_bind]
  rfl

/-- One node shape computation succeeds on a placed, attributed node. -/
theorem nodeShapeOne_ok (G : Graph) (pos : List (String × (ℚ × ℚ)))
    (gn : GNode) (hp : (alookup pos gn.id).isSome = true)
    (ha : ∃ a, G.getAttr gn.id = .ok a) :
    ∃ r, nodeShapeOne G pos gn = .ok r := by
  obtain ⟨p, hpe⟩ := exlookup_ok_of_isSome pos gn.id hp
  obtain ⟨a, hae⟩ := ha
  unfold nodeShapeOne
  dsimp only
  rw [hpe, hae]
  exact ⟨_, rfl⟩

/-- The node shape/annotation pass succeeds when each node does. -/
theorem createNodeShapesAndAnnots_ok (G : Graph)
    (pos : List (String × (ℚ × ℚ))) (vns : List String)
    (h : ∀ gn ∈ G.nodes, ∃ r, nodeShapeOne G pos gn = .ok r) :
    ∃ sa, createNodeShapesAndAnnots G pos vns = .ok sa := by
  obtain ⟨rs, hrs⟩ := exceptMapM_ok_of_forall _ G.nodes h
  refine ⟨(rs.map Prod.fst, rs.map Prod.snd), ?_⟩
  unfold createNodeShapesAndAnnots
  rw [hrs, except_ok_bind]
  rfl

/-- The tier-extent scan succeeds over placed, attributed nodes drawn from
the model. -/
theorem calculateTierExtents_ok (m : Model) (G : Graph)
    (pos : List (String × (ℚ × ℚ)))
    (hpos : ∀ gn ∈ G.nodes, (alookup pos gn.id).isSome = true)
    (hattr : ∀ gn ∈ G.nodes, ∃ a, G.getAttr gn.id = .ok a)
    (hfind : ∀ gn ∈ G.nodes, ∃ n ∈ m.nodes, n.id = gn.id) :
    ∃ ext, calculateTierExtents m G pos = .ok ext := by
  unfold calculateTierExtents
  refine (exceptFoldlM_ok _ (fun _ => True) G.nodes [] trivial ?_).imp
    (fun ext h => h.1)
  intro acc gn hgn _
  obtain ⟨p, hp⟩ := exlookup_ok_of_isSome pos gn.id (hpos gn hgn)
  obtain ⟨a, ha⟩ := hattr gn hgn
  obtain ⟨n', hn', -⟩ := model_find_ok m gn.id (hfind gn hgn)
  refine ⟨(match alookup acc n'.maturity with
    | some l => ainsert acc n'.maturity
        (l ++ [(p.2 + a.height/2, p.2 - a.height/2)])
    | none => ainsert acc n'.maturity
        [(p.2 + a.height/2, p.2 - a.height/2)]), ?_, trivial⟩
  dsimp only
  rw [hp, except_ok_bind, ha, except_ok_bind, hn']
  rfl

/-- Tag a bare success with the trivial invariant. -/
theorem exists_ok_and_true {β : Type} {e : Except String β}
    (h : ∃ s, e = .ok s) : ∃ s, e = .ok s ∧ True :=
  h.imp (fun _ hs => ⟨hs, trivial⟩)

/-- The per-tier band bounds computation succeeds whenever the tier key is
present on both boundary dictionaries and the two dictionaries share their
key set. -/
theorem calculateTierBandBounds_ok (tier : ℚ) (tops bottoms : List (ℚ × ℚ))
    (ht : (alookup tops tier).isSome = true)
    (hb : (alookup bottoms tier).isSome = true)
    (htb : ∀ k : ℚ, (alookup tops k).isSome = true →
      (alookup bottoms k).isSome = true)
    (hbt : ∀ k : ℚ, (alookup bottoms k).isSome = true →
      (alookup tops k).isSome = true) :
    ∃ b, calculateTierBandBounds tier tops bottoms = .ok b := by
  unfold calculateTierBandBounds
  split_ifs with h1 h2 h3
  · obtain ⟨rfl, h15, hb1⟩ := h1
    obtain ⟨top, htop⟩ := exlookup_ok_of_isSome bottoms 1 hb1
    obtain ⟨t1, ht1⟩ := exlookup_ok_of_isSome tops 1 (hbt 1 hb1)
    obtain ⟨b15, hb15⟩ := exlookup_ok_of_isSome bottoms (3/2) (htb (3/2) h15)
    rw [htop, except_ok_bind, ht1, except_ok_bind, hb15, except_ok_bind]
    exact ⟨_, rfl⟩
  · obtain ⟨rfl, ht1s, hb2s⟩ := h2
    obtain ⟨t1, ht1⟩ := exlookup_ok_of_isSome tops 1 ht1s
    obtain ⟨b15, hb15⟩ := exlookup_ok_of_isSome bottoms (3/2) hb
    obtain ⟨t15, ht15⟩ := exlookup_ok_of_isSome tops (3/2) ht
    obtain ⟨b2, hb2⟩ := exlookup_ok_of_isSome bottoms 2 hb2s
    rw [ht1, except_ok_bind, hb15, except_ok_bind, ht15, except_ok_bind,
      hb2, except_ok_bind]
    exact ⟨_, rfl⟩
  · obtain ⟨rfl, h15, ht2s⟩ := h3
    obtain ⟨t15, ht15⟩ := exlookup_ok_of_isSome tops (3/2) h15
    obtain ⟨b2, hb2⟩ := exlookup_ok_of_isSome bottoms 2 hb
    obtain ⟨t2, ht2⟩ := exlookup_ok_of_isSome tops 2 ht2s
    rw [ht15, except_ok_bind, hb2, except_ok_bind, ht2, except_ok_bind]
    exact ⟨_, rfl⟩
  · obtain ⟨top, htop⟩ := exlookup_ok_of_isSome bottoms tier hb
    obtain ⟨bot, hbot⟩ := exlookup_ok_of_isSome tops tier ht
    rw [htop, except_ok_bind, hbot, except_ok_bind]
    exact ⟨_, rfl⟩

/-- The tier background pass succeeds over a nonempty, placed, attributed
graph drawn from the model. -/
theorem createTierBackgrounds_ok (m : Model) (G : Graph)
    (pos : List (String × (ℚ × ℚ)))
    (hposne : pos ≠ [])
    (hpos : ∀ gn ∈ G.nodes, (alookup pos gn.id).isSome = true)
    (hattr : ∀ gn ∈ G.nodes, ∃ a, G.getAttr gn.id = .ok a)
    (hfind : ∀ gn ∈ G.nodes, ∃ n ∈ m.nodes, n.id = gn.id) :
    ∃ bg, createTierBackgrounds m G pos = .ok bg := by
  unfold createTierBackgrounds
  dsimp only
  have hw : ∀ gn ∈ G.nodes, ∃ w,
      (G.getAttr gn.id).map (fun a => a.width) = .ok w := by
    intro gn hgn
    obtain ⟨a, ha⟩ := hattr gn hgn
    exact ⟨a.width, by rw [ha]; rfl⟩
  obtain ⟨ws, hws⟩ := exceptMapM_ok_of_forall _ G.nodes hw
  rw [hws, except_ok_bind]
  have hne : pos.map (fun p => p.2.1) ≠ [] := by
    simpa using hposne
  rw [if_neg hne]
  obtain ⟨ext, hext⟩ := calculateTierExtents_ok m G pos hpos hattr hfind
  rw [hext, except_ok_bind]
  have hkt : ∀ k : ℚ, (alookup (calculateTierBoundaries ext).1 k).isSome =
      (alookup ext k).isSome := by
    intro k
    unfold calculateTierBoundaries
    dsimp only
    exact alookup_map_val_isSome ext _ k
  have hkb : ∀ k : ℚ, (alookup (calculateTierBoundaries ext).2 k).isSome =
      (alookup ext k).isSome := by
    intro k
    unfold calculateTierBoundaries
    dsimp only
    exact alookup_map_val_isSome ext _ k
  refine except_bind_exists ((exceptFoldlM_ok _ (fun _ => True)
    [1, 3/2, 2] ([], []) trivial ?_).imp (fun res h => h.1)) (fun res => ⟨res, rfl⟩)
  intro acc tier htier _
  refine exists_ok_and_true ?_
  by_cases hn : (alookup ext tier).isNone = true
  · refine ⟨acc, ?_⟩
    dsimp only
    rw [if_pos hn]
    rfl
  · have hs : (alookup ext tier).isSome = true := by
      cases hx : alookup ext tier with
      | none => rw [hx] at hn; exact absurd rfl hn
      | some x => rfl
    obtain ⟨b, hbnd⟩ := calculateTierBandBounds_ok tier
      (calculateTierBoundaries ext).1 (calculateTierBoundaries ext).2
      ((hkt tier).trans hs) ((hkb tier).trans hs)
      (fun k hk => (hkb k).trans ((hkt k).symm.trans hk))
      (fun k hk => (hkt k).trans ((hkb k).symm.trans hk))
    rw [if_neg hn, hbnd, except_ok_bind]
    exact ⟨_, rfl⟩

/-- The X-group annotation pass succeeds when every placed node comes from
the model and every model X-group lies in 1..4. -/
theorem createXGroupAnnots_ok (m : Model) (pos : List (String × (ℚ × ℚ)))
    (tierTops : List (ℚ × ℚ))
    (hposne : pos ≠ [])
    (hkeys : ∀ p ∈ pos, ∃ n ∈ m.nodes, n.id = p.1)
    (hxg : ∀ n ∈ m.nodes, n.xGroup ∈ ([1, 2, 3, 4] : List ℤ)) :
    ∃ anns, createXGroupAnnots m pos tierTops = .ok anns := by
  unfold createXGroupAnnots
  dsimp only
  refine except_bind_exists ((exceptFoldlM_ok _
    (fun acc : List (ℤ × List (ℚ × ℚ)) =>
      ∀ k : ℤ, k ∈ ([1, 2, 3, 4] : List ℤ) →
        (alookup acc k).isSome = true)
    pos (xGroupLabels.map (fun p => (p.1, [])))
    (by intro k hk; fin_cases hk <;> rfl) ?_).imp (fun xgp h => h.1))
    ?_
  · intro acc p hp hP
    obtain ⟨n, hn, hdf⟩ := dfXGroup_ok m p.1 (hkeys p hp)
    rcases Option.isSome_iff_exists.mp (hP n.xGroup (hxg n hn)) with ⟨l, hl⟩
    refine ⟨ainsert acc n.xGroup (l ++ [p.2]), ?_, ?_⟩
    · dsimp only
      rw [hdf, except_ok_bind, hl]
      rfl
    · intro k hk
      exact alookup_ainsert_isSome acc n.xGroup k (l ++ [p.2]) (hP k hk)
  · intro xgp
    rw [if_neg hposne]
    refine except_bind_exists ⟨_, rfl⟩ (fun maxY => ?_)
    exact ⟨_, rfl⟩

/-- The hit-test trace succeeds over placed, attributed nodes. -/
theorem createInteractiveNodeTrace_ok (m : Model) (G : Graph)
    (pos : List (String × (ℚ × ℚ)))
    (hpos : ∀ gn ∈ G.nodes, (alookup pos gn.id).isSome = true)
    (hattr : ∀ gn ∈ G.nodes, ∃ a, G.getAttr gn.id = .ok a) :
    ∃ it, createInteractiveNodeTrace m G pos = .ok it := by
  unfold createInteractiveNodeTrace
  dsimp only
  refine except_bind_exists (exceptMapM_ok_of_forall _ G.nodes ?_)
    (fun rows => ⟨_, rfl⟩)
  intro gn hgn
  obtain ⟨p, hp⟩ := exlookup_ok_of_isSome pos gn.id (hpos gn hgn)
  obtain ⟨a, ha⟩ := hattr gn hgn
  refine ⟨(p.1, p.2, a.label, gn.id), ?_⟩
  dsimp only
  rw [hp, except_ok_bind, ha, except_ok_bind]
  rfl

/-- The figure height computation succeeds on a nonempty position
dictionary. -/
theorem calculateFigureHeight_ok (pos : List (String × (ℚ × ℚ)))
    (hposne : pos ≠ []) : ∃ h, calculateFigureHeight pos = .ok h := by
  unfold calculateFigureHeight
  rw [if_neg hposne]
  exact ⟨_, rfl⟩

/-- The plot bounds computation succeeds on a nonempty position dictionary
over an attributed graph. -/
theorem calculatePlotBounds_ok (pos : List (String × (ℚ × ℚ))) (G : Graph)
    (hposne : pos ≠ [])
    (hattr : ∀ gn ∈ G.nodes, ∃ a, G.getAttr gn.id = .ok a) :
    ∃ b, calculatePlotBounds pos G = .ok b := by
  unfold calculatePlotBounds
  dsimp only
  have hw : ∀ gn ∈ G.nodes, ∃ w,
      (G.getAttr gn.id).map (fun a => a.width) = .ok w := by
    intro gn hgn
    obtain ⟨a, ha⟩ := hattr gn hgn
    exact ⟨a.width, by rw [ha]; rfl⟩
  have hh : ∀ gn ∈ G.nodes, ∃ w,
      (G.getAttr gn.id).map (fun a => a.height) = .ok w := by
    intro gn hgn
    obtain ⟨a, ha⟩ := hattr gn hgn
    exact ⟨a.height, by rw [ha]; rfl⟩
  refine except_bind_exists (exceptMapM_ok_of_forall _ G.nodes hw)
    (fun ws => ?_)
  refine except_bind_exists (exceptMapM_ok_of_forall _ G.nodes hh)
    (fun hs => ?_)
  have hne : pos.map (fun p => p.2.1) ≠ [] := by
    simpa using hposne
  rw [if_neg hne]
  exact ⟨_, rfl⟩

/-- C1 counterexample: the single-domain model `mBadMat` has its maturity at
the admitted level 3.0 and no edges — valid input for the claim — yet
position assignment leaves its domain unplaced and `build_figure` raises
instead of producing a scene. -/
theorem c1_counterexample :
    (∀ n ∈ mBadMat.nodes, n.maturity ∈ fiveMaturityLevels) ∧
    mBadMat.nodes ≠ [] ∧ mBadMat.edges = [] ∧
    alookup (assignStackedPositions mBadMat.nodes) "z" = none ∧
    (buildFigure wRF mBadMat none ["upstream", "downstream"] "filter" none
      0).isOk = false := by
  with_unfolding_all decide

/-- C1: totality of `build_figure`, amended. The claim as stated — any
maturity among the five levels {1.0, 1.5, 2.0, 3.0, 4.0} is safe — is
refuted by `c1_counterexample`, because `_assign_stacked_positions` only
places nodes whose maturity lies on the three tier bands, and the node
subscript in `_build_networkx_graph` then raises `KeyError`. Amended: for
every model with at least one domain, every maturity on the tier bands
{1.0, 1.5, 2.0}, every X-group in {1, 2, 3, 4} and all edges between
existing domain ids, position assignment covers every domain and
`build_figure` returns a scene for every selection, hover, mode, direction
list and timestamp. -/
theorem c1_build_totality (rf : RealFuns) (m : Model)
    (selected hovered : Option String) (directions : List String)
    (mode : String) (ts : ℕ)
    (hne : m.nodes ≠ [])
    (hmat : ∀ n ∈ m.nodes, n.maturity ∈ tierBandKeys)
    (hxg : ∀ n ∈ m.nodes, n.xGroup ∈ ([1, 2, 3, 4] : List ℤ))
    (hedges : ∀ e ∈ m.edges, (∃ n ∈ m.nodes, n.id = e.source) ∧
      (∃ n ∈ m.nodes, n.id = e.target)) :
    (∀ n ∈ m.nodes,
      (alookup (assignStackedPositions m.nodes) n.id).isSome = true) ∧
    ∃ s, buildFigure rf m selected directions mode hovered ts = .ok s := by
  have hposA : ∀ n ∈ m.nodes,
      (alookup (assignStackedPositions m.nodes) n.id).isSome = true :=
    fun n hn => assign_covers m.nodes n hn (hmat n hn)
  refine ⟨hposA, ?_⟩
  obtain ⟨G₁, hG₁, hAll₁, hFrom₁, hCov₁, hE₁⟩ :=
    buildNetworkxGraph_spec m (assignStackedPositions m.nodes) hposA hedges
  have hPosOfMid : ∀ i, (∃ n ∈ m.nodes, n.id = i) →
      (alookup G₁.posMap i).isSome = true := by
    intro i hi
    rcases hi with ⟨n, hn, hid⟩
    exact posMap_covers G₁ hAll₁ i (hid ▸ hCov₁ n hn)
  have hPosKeys : ∀ p ∈ G₁.posMap, ∃ n ∈ m.nodes, n.id = p.1 := by
    intro p hp
    rcases posMap_keys G₁ p hp with ⟨gn, hgn, hid⟩
    rcases hFrom₁ gn hgn with ⟨n, hn, hnid⟩
    exact ⟨n, hn, by rw [hnid, hid]⟩
  have hPosNe : G₁.posMap ≠ [] := by
    cases hmn : m.nodes with
    | nil => exact absurd hmn hne
    | cons n0 t =>
      refine ne_nil_of_alookup_isSome _ n0.id (hPosOfMid n0.id ⟨n0, ?_, rfl⟩)
      rw [hmn]
      exact List.mem_cons_self n0 t
  have hAttr₁ : ∀ gn ∈ G₁.nodes, ∃ a, G₁.getAttr gn.id = .ok a :=
    fun gn hgn => getAttr_ok G₁ hAll₁ gn.id
      ((mem_nodeIds G₁ gn.id).mpr ⟨gn, hgn, rfl⟩)
  obtain ⟨G₂, hG₂⟩ := applyNodeStyles_ok G₁ selected hovered
    (determineInteractionState G₁ selected hovered mode).2.2 hAttr₁
  obtain ⟨hE₂, hF₂⟩ := applyNodeStyles_inversion G₁ G₂ selected hovered
    _ hG₂
  have hIdsEq : G₁.nodeIds = G₂.nodeIds := by
    unfold Graph.nodeIds
    exact forall₂_map_eq hF₂
      (fun gn gn' hrel => ((styleOne_preserves _ _ _ _ _ _ hrel).1).symm)
  have hAll₂ : ∀ gn ∈ G₂.nodes, gn.attrs.isSome = true := by
    intro gn hgn
    obtain ⟨gn₁, hgn₁, hrel⟩ := forall₂_mem_right hF₂ gn hgn
    obtain ⟨-, a, -, a', ha', -⟩ := styleOne_preserves _ _ _ _ _ _ hrel
    rw [ha']
    rfl
  have hAttr₂ : ∀ gn ∈ G₂.nodes, ∃ a, G₂.getAttr gn.id = .ok a :=
    fun gn hgn => getAttr_ok G₂ hAll₂ gn.id
      ((mem_nodeIds G₂ gn.id).mpr ⟨gn, hgn, rfl⟩)
  have hFrom₂ : ∀ gn ∈ G₂.nodes, ∃ n ∈ m.nodes, n.id = gn.id := by
    intro gn hgn
    obtain ⟨gn₁, hgn₁, hrel⟩ := forall₂_mem_right hF₂ gn hgn
    have hid := (styleOne_preserves _ _ _ _ _ _ hrel).1
    rcases hFrom₁ gn₁ hgn₁ with ⟨n, hn, hnid⟩
    exact ⟨n, hn, by rw [hnid, ← hid]⟩
  have hPos₂ : ∀ gn ∈ G₂.nodes, (alookup G₁.posMap gn.id).isSome = true :=
    fun gn hgn => hPosOfMid gn.id (hFrom₂ gn hgn)
  have hGAMid₂ : ∀ i, (∃ n ∈ m.nodes, n.id = i) →
      ∃ a, G₂.getAttr i = .ok a := by
    intro i hi
    rcases hi with ⟨n, hn, hid⟩
    exact getAttr_ok G₂ hAll₂ i (hIdsEq ▸ (hid ▸ hCov₁ n hn))
  have hta : ∃ ta,
      (if (determineVisibleElements G₂ selected hovered directions mode).2
          ≠ [] then
        createEdgeTraces rf m G₂ G₁.posMap
          (determineVisibleElements G₂ selected hovered directions mode).2
          (determineVisibleElements G₂ selected hovered directions mode).1
          mode
      else pure ([], [])) = .ok ta := by
    by_cases hv : (determineVisibleElements G₂ selected hovered directions
        mode).2 = []
    · rw [if_neg (fun hcon => hcon hv)]
      exact ⟨([], []), rfl⟩
    · rw [if_pos hv]
      apply createEdgeTraces_ok
      intro ed hed
      have hedG : ed ∈ G₁.edges := by
        rw [← hE₂]
        exact visibleEdges_sub G₂ selected hovered directions mode ed hed
      obtain ⟨hu, hv'⟩ := hE₁ ed hedG
      exact edgeTraceOne_ok rf m G₂ G₁.posMap ed
        (hPosOfMid ed.1.1 hu) (hPosOfMid ed.1.2 hv')
        hu hv' (hGAMid₂ ed.1.1 hu) (hGAMid₂ ed.1.2 hv')
  obtain ⟨ta, htaeq⟩ := hta
  obtain ⟨bg, hbg⟩ := createTierBackgrounds_ok m G₂ G₁.posMap hPosNe
    hPos₂ hAttr₂ hFrom₂
  obtain ⟨sa, hsa⟩ := createNodeShapesAndAnnots_ok G₂ G₁.posMap
    (determineVisibleElements G₂ selected hovered directions mode).1
    (fun gn hgn => nodeShapeOne_ok G₂ G₁.posMap gn (hPos₂ gn hgn)
      (hAttr₂ gn hgn))
  obtain ⟨ext, hext⟩ := calculateTierExtents_ok m G₂ G₁.posMap hPos₂
    hAttr₂ hFrom₂
  obtain ⟨xga, hxga⟩ := createXGroupAnnots_ok m G₁.posMap
    (calculateTierBoundaries ext).1 hPosNe hPosKeys hxg
  obtain ⟨it, hit⟩ := createInteractiveNodeTrace_ok m G₂ G₁.posMap hPos₂
    hAttr₂
  obtain ⟨hei, hhei⟩ := calculateFigureHeight_ok G₁.posMap hPosNe
  obtain ⟨bou, hbou⟩ := calculatePlotBounds_ok G₁.posMap G₂ hPosNe hAttr₂
  unfold buildFigure
  dsimp only
  simp only [hG₁, hG₂, htaeq, hbg, hsa, hext, hxga, hit, hhei, hbou,
    except_ok_bind]
  exact ⟨_, rfl⟩

/-- Witness for C1 at the fixture model: all hypotheses hold concretely and
the amended totality theorem yields coverage and a scene. -/
theorem c1_build_totality_witness :
    (∀ n ∈ wModel.nodes,
      (alookup (assignStackedPositions wModel.nodes) n.id).isSome = true) ∧
    ∃ s, buildFigure wRF wModel none ["upstream"] "interactive" (some "b")
      11 = .ok s :=
  c1_build_totality wRF wModel none (some "b") ["upstream"] "interactive" 11
    (by with_unfolding_all decide) (by with_unfolding_all decide)
    (by with_unfolding_all decide) (by with_unfolding_all decide)
